import Mathlib

/-!
# tungwong-video-worker: job lifecycle controller

A shallow embedding of the message handler (`internal/nats/consumer.go`), the
processor (`internal/worker/processor.go`), the status client
(`internal/grpc/client.go`) and the artifact cleanup of the encoder
(`internal/ffmpeg/encoder.go`).

Stateful code is written in explicit state-passing style over `Sys`, which holds
the processor's `retryTracker` map and the trace of calls made to the outside
world.  The outside world (JSON decoding, the gRPC stub, the transcoder) is a
parameter `Env`; every answer may depend on the request and on the number of
earlier calls of the same operation.  Logging and timestamps are left out: they
never influence control flow.
-/

namespace VideoWorker

/-! ## Go values -/

/-- Go `error` values: `errors.New` / `fmt.Errorf` without `%w` give an
`errorString`, `fmt.Errorf` with one `%w` gives a `wrapError` holding the
formatted text and the wrapped error. -/
inductive GoError where
  | errorString (msg : String)
  | wrapError (msg : String) (err : GoError)
deriving DecidableEq, Repr

deriving instance DecidableEq for Except

/-- The `Error()` method. -/
def GoError.Error : GoError → String
  | .errorString msg => msg
  | .wrapError msg _ => msg

/-- The `Unwrap()` method as seen by `errors.Unwrap`. -/
def GoError.Unwrap : GoError → Option GoError
  | .errorString _ => none
  | .wrapError _ err => some err

/-- Models `fmt.Errorf(text + "%w", err)` for a non-nil `err`. -/
def errorfW (text : String) (err : GoError) : GoError :=
  .wrapError (text ++ err.Error) err

/-- Models `fmt.Errorf(text + "%s", s)`. -/
def errorfS (text s : String) : GoError :=
  .errorString (text ++ s)

/-- Two's complement wrap-around of a mathematical integer to `w` bits. -/
def wrapInt (w : Nat) (x : Int) : Int :=
  (x + 2 ^ (w - 1)) % 2 ^ w - 2 ^ (w - 1)

/-- Arithmetic result stored in a Go `int` (64 bits). -/
def goInt (x : Int) : Int := wrapInt 64 x

/-- The conversion `int32(x)`. -/
def int32 (x : Int) : Int := wrapInt 32 x

/-- The conversion `uint64(x)` of a signed integer. -/
def uint64 (x : Int) : Nat := (x % 2 ^ 64).toNat

/-! ## `path/filepath` on a Unix host -/

/-- Splits a path at every `/`; the result is never empty. -/
def splitSep : List Char → List (List Char)
  | [] => [[]]
  | c :: cs =>
    if c = '/' then [] :: splitSep cs
    else
      match splitSep cs with
      | [] => [[c]]
      | h :: t => (c :: h) :: t

/-- One element of `Clean`'s main loop.  `stack` holds the elements written so
far, last one first; an element `..` on it is one of the leading `..` that
cannot be backtracked over. -/
def cleanStep (rooted : Bool) (stack : List (List Char)) (el : List Char) : List (List Char) :=
  if el = [] ∨ el = ['.'] then stack
  else if el = ['.', '.'] then
    match stack with
    | top :: rest =>
      if top = ['.', '.'] then (if rooted then stack else el :: stack) else rest
    | [] => if rooted then [] else [el]
  else el :: stack

/-- Joins path elements with `/`. -/
def joinSep : List (List Char) → List Char
  | [] => []
  | [e] => e
  | e :: es => e ++ '/' :: joinSep es

/-- The function `filepath.Clean` on characters. -/
def cleanChars (path : List Char) : List Char :=
  match path with
  | [] => ['.']
  | c :: _ =>
    let rooted := decide (c = '/')
    let out := joinSep ((splitSep path).foldl (cleanStep rooted) []).reverse
    if rooted then '/' :: out
    else if out = [] then ['.'] else out

/-- The function `filepath.Clean`. -/
def filepathClean (path : String) : String := String.mk (cleanChars path.data)

/-- The function `filepath.Join`: empty elements are ignored, the rest is joined
with `/` and cleaned; the result is empty when every element is empty. -/
def filepathJoin (elem : List String) : String :=
  match (elem.filter (fun e => e.data ≠ [])).map String.data with
  | [] => ""
  | es => String.mk (cleanChars (joinSep es))

/-- Drops the trailing `/` characters from a path given in reverse. -/
def dropSlashes : List Char → List Char
  | [] => []
  | c :: cs => if c = '/' then dropSlashes cs else c :: cs

/-- The function `filepath.Base`. -/
def filepathBase (path : String) : String :=
  match path.data with
  | [] => "."
  | cs =>
    match (dropSlashes cs.reverse).takeWhile (fun c => c ≠ '/') with
    | [] => "/"
    | last => String.mk last.reverse

/-! ## Configuration (`configs/config.go`) -/

structure NATSConfig where
  URL : String
  Stream : String
  Subject : String
  Consumer : String
  Durable : String

structure GRPCConfig where
  VideoManagementURL : String

structure WorkerConfig where
  ID : String
  MaxConcurrentJobs : Int

structure FFmpegConfig where
  HLSTime : Int
  Preset : String
  CRF : Int

structure PathsConfig where
  InputVideoPath : String
  OutputHLSPath : String
  OutputThumbnailPath : String

structure RetryConfig where
  MaxRetries : Int
  RetryBackoffSeconds : Int

structure Config where
  NATS : NATSConfig
  GRPC : GRPCConfig
  Worker : WorkerConfig
  FFmpeg : FFmpegConfig
  Paths : PathsConfig
  Retry : RetryConfig
  LogLevel : String

/-! ## Messages and requests -/

/-- The job descriptor of `internal/models/message.go`. -/
structure VideoUploadMessage where
  VideoID : String
  FileName : String
  UploadFilePath : String
  OriginalFormat : String
  UploaderID : String
  Title : String
  Description : String
deriving DecidableEq, Repr

/-- The part of `nats.MsgMetadata` that the handler reads. -/
structure MsgMetadata where
  NumDelivered : Nat
deriving DecidableEq, Repr

/-- A delivered `nats.Msg`: its payload and what `msg.Metadata()` returns
(`none` stands for the nil metadata returned together with an error). -/
structure Msg where
  Subject : String
  Data : List UInt8
  Metadata : Option MsgMetadata

/-- The output bundle of the encoder. -/
structure EncodeResult where
  HLSPath : String
  ThumbnailPath : String
  Duration : Int
deriving DecidableEq, Repr

structure MarkVideoProcessingRequest where
  VideoId : String
  WorkerId : String
deriving DecidableEq, Repr

structure UpdateVideoStatusRequest where
  VideoId : String
  Status : String
  HlsPath : String
  ThumbnailPath : String
  Duration : Int
deriving DecidableEq, Repr

structure HandleVideoFailureRequest where
  VideoId : String
  FailureReason : String
  ErrorCode : String
  ShouldRetry : Bool
  RetryCount : Int
deriving DecidableEq, Repr

/-- Response of `MarkVideoProcessing` and of `UpdateVideoStatus`. -/
structure StatusResponse where
  Success : Bool
  Message : String
deriving DecidableEq, Repr

structure HandleVideoFailureResponse where
  Success : Bool
  Message : String
  ShouldRetry : Bool
deriving DecidableEq, Repr

/-! ## The outside world -/

/-- Calls that leave the process, in the order they are made.  The gRPC events
carry the arguments of the client method, `Sleep` the duration in nanoseconds
handed to `time.Sleep`. -/
inductive Event where
  | MarkVideoProcessing (videoID : String)
  | EncodeToHLS (inputPath videoID : String)
  | UpdateVideoStatus (videoID hlsPath thumbnailPath : String) (duration : Int)
  | RemoveAll (dir : String)
  | HandleVideoFailure (videoID failureReason errorCode : String) (retryCount : Int)
  | Sleep (d : Int)
deriving DecidableEq, Repr

def Event.isMark : Event → Bool
  | .MarkVideoProcessing _ => true
  | _ => false

def Event.isEncode : Event → Bool
  | .EncodeToHLS _ _ => true
  | _ => false

def Event.isUpdate : Event → Bool
  | .UpdateVideoStatus _ _ _ _ => true
  | _ => false

def Event.isRemoveAll : Event → Bool
  | .RemoveAll _ => true
  | _ => false

def Event.isFailure : Event → Bool
  | .HandleVideoFailure _ _ _ _ => true
  | _ => false

/-- The collaborators.  `jsonUnmarshal` is `json.Unmarshal` into a
`VideoUploadMessage`; the three `rpc` fields are the generated gRPC stub;
`encodeToHLS` is `Encoder.EncodeToHLS`, which runs external programs.  The
first argument of the stateful ones is the number of earlier calls of the same
operation, so an answer may change from one call to the next. -/
structure Env where
  jsonUnmarshal : List UInt8 → Except GoError VideoUploadMessage
  rpcMarkVideoProcessing : Nat → MarkVideoProcessingRequest → Except GoError StatusResponse
  encodeToHLS : Nat → String → String → Except GoError EncodeResult
  rpcUpdateVideoStatus : Nat → UpdateVideoStatusRequest → Except GoError StatusResponse
  rpcHandleVideoFailure : Nat → HandleVideoFailureRequest → Except GoError HandleVideoFailureResponse

/-- A Go `map[string]int`. -/
abbrev RetryTracker := String → Option Int

/-- The read `m[k]`: the zero value when the key is absent. -/
def RetryTracker.get (m : RetryTracker) (k : String) : Int := (m k).getD 0

/-- The assignment `m[k] = v`. -/
def RetryTracker.set (m : RetryTracker) (k : String) (v : Int) : RetryTracker :=
  fun x => if x = k then some v else m x

/-- The builtin `delete(m, k)`. -/
def RetryTracker.delete (m : RetryTracker) (k : String) : RetryTracker :=
  fun x => if x = k then none else m x

/-- Mutable state: the processor's retry ledger and the calls made so far. -/
structure Sys where
  retryTracker : RetryTracker
  trace : List Event

/-- Appends one call to the trace. -/
def Sys.record (s : Sys) (e : Event) : Sys := { s with trace := s.trace ++ [e] }

/-- Number of calls in the trace that satisfy `p`. -/
def Sys.calls (s : Sys) (p : Event → Bool) : Nat := s.trace.countP p

/-- The state right after `NewProcessor`: an empty map, nothing called yet. -/
def NewProcessor : Sys := { retryTracker := fun _ => none, trace := [] }

/-! ## The status client (`internal/grpc/client.go`) -/

/-- The request built by `MarkVideoProcessing`. -/
def markVideoProcessingRequest (workerID videoID : String) : MarkVideoProcessingRequest :=
  { VideoId := videoID, WorkerId := workerID }

/-- The request built by `UpdateVideoStatus`. -/
def updateVideoStatusRequest (videoID hlsPath thumbnailPath : String) (duration : Int) :
    UpdateVideoStatusRequest :=
  { VideoId := videoID, Status := "done", HlsPath := hlsPath, ThumbnailPath := thumbnailPath,
    Duration := int32 duration }

/-- The request built by `HandleVideoFailure`. -/
def handleVideoFailureRequest (videoID failureReason errorCode : String) (retryCount : Int) :
    HandleVideoFailureRequest :=
  { VideoId := videoID, FailureReason := failureReason, ErrorCode := errorCode,
    ShouldRetry := decide (retryCount < 3), RetryCount := int32 retryCount }

/-- The method `VideoManagementClient.MarkVideoProcessing`. -/
def MarkVideoProcessing (env : Env) (workerID : String) (s : Sys) (videoID : String) :
    Sys × Option GoError :=
  let s1 := s.record (.MarkVideoProcessing videoID)
  match env.rpcMarkVideoProcessing (s.calls Event.isMark)
      (markVideoProcessingRequest workerID videoID) with
  | .error err => (s1, some (errorfW "failed to mark video as processing: " err))
  | .ok resp =>
    if !resp.Success then
      (s1, some (errorfS "failed to mark video as processing: " resp.Message))
    else (s1, none)

/-- The method `VideoManagementClient.UpdateVideoStatus`. -/
def UpdateVideoStatus (env : Env) (s : Sys) (videoID hlsPath thumbnailPath : String)
    (duration : Int) : Sys × Option GoError :=
  let s1 := s.record (.UpdateVideoStatus videoID hlsPath thumbnailPath duration)
  match env.rpcUpdateVideoStatus (s.calls Event.isUpdate)
      (updateVideoStatusRequest videoID hlsPath thumbnailPath duration) with
  | .error err => (s1, some (errorfW "failed to update video status: " err))
  | .ok resp =>
    if !resp.Success then
      (s1, some (errorfS "failed to update video status: " resp.Message))
    else (s1, none)

/-- The method `VideoManagementClient.HandleVideoFailure`; the Go pair
`(bool, error)` is an `Except`, the boolean of the error case being unused by
the caller. -/
def HandleVideoFailure (env : Env) (s : Sys) (videoID failureReason errorCode : String)
    (retryCount : Int) : Sys × Except GoError Bool :=
  let s1 := s.record (.HandleVideoFailure videoID failureReason errorCode retryCount)
  match env.rpcHandleVideoFailure (s.calls Event.isFailure)
      (handleVideoFailureRequest videoID failureReason errorCode retryCount) with
  | .error err => (s1, .error (errorfW "failed to handle video failure: " err))
  | .ok resp =>
    if !resp.Success then
      (s1, .error (errorfS "failed to handle video failure: " resp.Message))
    else (s1, .ok resp.ShouldRetry)

/-- The error returned by `WithRetry` once the loop is left: the last error
wrapped, or the text `fmt` prints for a nil `%w` operand when the operation was
never called. -/
def retriesExhausted (maxRetries : Int) (err : Option GoError) : GoError :=
  match err with
  | some e => errorfW ("operation failed after " ++ toString maxRetries ++ " retries: ") e
  | none => .errorString ("operation failed after " ++ toString maxRetries ++ " retries: %!w(<nil>)")

/-- The value `time.Duration(i+1) * 5 * time.Second`, in nanoseconds (`int64`). -/
def waitTime (i : Int) : Int := wrapInt 64 (wrapInt 64 (wrapInt 64 (i + 1) * 5) * 1000000000)

/-- The `for` loop of `WithRetry`, `i` being the loop variable and `err` the
last error.  `fuel` bounds the remaining iterations; `WithRetry` starts it at
`maxRetries`, which the loop never exceeds. -/
def withRetryLoop (operation : Sys → Sys × Option GoError) (maxRetries : Int) :
    Nat → Int → Option GoError → Sys → Sys × Option GoError
  | 0, _, err, s => (s, some (retriesExhausted maxRetries err))
  | fuel + 1, i, err, s =>
    if i < maxRetries then
      let r := operation s
      match r.2 with
      | none => (r.1, none)
      | some e =>
        let s1 := if i < maxRetries - 1 then r.1.record (.Sleep (waitTime i)) else r.1
        withRetryLoop operation maxRetries fuel (i + 1) (some e) s1
    else (s, some (retriesExhausted maxRetries err))

/-- The method `VideoManagementClient.WithRetry`. -/
def WithRetry (operation : Sys → Sys × Option GoError) (maxRetries : Int) (s : Sys) :
    Sys × Option GoError :=
  withRetryLoop operation maxRetries maxRetries.toNat 0 none s

/-! ## The encoder's cleanup (`internal/ffmpeg/encoder.go`) -/

/-- The method `Encoder.EncodeToHLS`, seen from its caller. -/
def EncodeToHLS (env : Env) (s : Sys) (inputPath videoID : String) :
    Sys × Except GoError EncodeResult :=
  (s.record (.EncodeToHLS inputPath videoID),
    env.encodeToHLS (s.calls Event.isEncode) inputPath videoID)

/-- The method `Encoder.Cleanup`: both output directories of the job are removed;
a failing `os.RemoveAll` is only logged. -/
def Cleanup (paths : PathsConfig) (s : Sys) (videoID : String) : Sys :=
  let dirs := [filepathJoin [paths.OutputHLSPath, videoID],
    filepathJoin [paths.OutputThumbnailPath, videoID]]
  dirs.foldl (fun st dir => st.record (.RemoveAll dir)) s

/-! ## The processor (`internal/worker/processor.go`) -/

/-- The method `Processor.handleFailure`. -/
def handleFailure (env : Env) (cfg : Config) (s : Sys) (videoID : String) (err : GoError)
    (errorCode : String) : Sys × Option GoError :=
  let retryCount := s.retryTracker.get videoID
  let s1 : Sys := { s with retryTracker := s.retryTracker.set videoID (goInt (retryCount + 1)) }
  let s2 := Cleanup cfg.Paths s1 videoID
  let r := HandleVideoFailure env s2 videoID err.Error errorCode retryCount
  match r.2 with
  | .error _ => (r.1, some (errorfW "processing failed and couldn't report: " err))
  | .ok shouldRetry =>
    let s3 : Sys :=
      if !shouldRetry then { r.1 with retryTracker := r.1.retryTracker.delete videoID } else r.1
    (s3, some err)

/-- The input path built in step 2 of `Process`. -/
def inputPath (cfg : Config) (msg : VideoUploadMessage) : String :=
  filepathJoin [cfg.Paths.InputVideoPath, filepathBase msg.UploadFilePath]

/-- The method `Processor.Process`; the result is the returned `error`, `none`
standing for nil. -/
def Process (env : Env) (cfg : Config) (s : Sys) (msg : VideoUploadMessage) :
    Sys × Option GoError :=
  let videoID := msg.VideoID
  let s1 := (MarkVideoProcessing env cfg.Worker.ID s videoID).1
  let enc := EncodeToHLS env s1 (inputPath cfg msg) videoID
  match enc.2 with
  | .error err => handleFailure env cfg enc.1 videoID err "ENCODING_FAILED"
  | .ok result =>
    let upd := UpdateVideoStatus env enc.1 videoID result.HLSPath result.ThumbnailPath
      result.Duration
    match upd.2 with
    | none => (upd.1, none)
    | some _ =>
      let again := WithRetry (fun st => UpdateVideoStatus env st videoID result.HLSPath
        result.ThumbnailPath result.Duration) 3 upd.1
      match again.2 with
      | some err => (again.1, some (errorfW "failed to update video status after retries: " err))
      | none => (again.1, none)

/-! ## The message handler (`internal/nats/consumer.go`) -/

/-- The acknowledgement sent for a message: `msg.Term()`, `msg.Nak()` or
`msg.Ack()`. -/
inductive Action where
  | Term
  | Nak
  | Ack
deriving DecidableEq, Repr

/-- The test `meta != nil && meta.NumDelivered >= uint64(c.config.Retry.MaxRetries+1)`. -/
def maxDeliveriesReached (cfg : Config) (md : Option MsgMetadata) : Bool :=
  match md with
  | none => false
  | some m => decide (m.NumDelivered ≥ uint64 (goInt (cfg.Retry.MaxRetries + 1)))

/-- The method `Consumer.handleMessage`: the new state and the acknowledgement
sent for the message. -/
def handleMessage (env : Env) (cfg : Config) (s : Sys) (msg : Msg) : Sys × Action :=
  match env.jsonUnmarshal msg.Data with
  | .error _ => (s, .Term)
  | .ok videoMsg =>
    let r := Process env cfg s videoMsg
    match r.2 with
    | some _ =>
      if maxDeliveriesReached cfg msg.Metadata then (r.1, .Term) else (r.1, .Nak)
    | none => (r.1, .Ack)

/-- Handles a sequence of deliveries one after the other. -/
def handleAll (env : Env) (cfg : Config) (s : Sys) (msgs : List Msg) : Sys :=
  msgs.foldl (fun st msg => (handleMessage env cfg st msg).1) s

/-! ## Outcome predicates and concrete scenarios -/

/-- A status call counts as successful when the stub returns no error and the
response carries `Success = true`. -/
def statusOk : Except GoError StatusResponse → Bool
  | .ok resp => resp.Success
  | .error _ => false

/-- The failure report counts as successful when the stub returns no error and
the response carries `Success = true`. -/
def reportOk : Except GoError HandleVideoFailureResponse → Bool
  | .ok resp => resp.Success
  | .error _ => false

/-- The retry decision carried by a successful failure report. -/
def reportShouldRetry : Except GoError HandleVideoFailureResponse → Bool
  | .ok resp => resp.ShouldRetry
  | .error _ => false

/-- The defaults of `LoadConfig` with `MAX_RETRIES` set to `maxRetries`. -/
def configWith (maxRetries : Int) : Config :=
  { NATS := { URL := "nats://localhost:4222", Stream := "VIDEO_UPLOADS",
              Subject := "video.upload.created", Consumer := "video-worker-group",
              Durable := "video-worker" },
    GRPC := { VideoManagementURL := "localhost:50051" },
    Worker := { ID := "worker-1", MaxConcurrentJobs := 3 },
    FFmpeg := { HLSTime := 10, Preset := "medium", CRF := 23 },
    Paths := { InputVideoPath := "./uploads/videos", OutputHLSPath := "./outputs/hls",
               OutputThumbnailPath := "./outputs/thumbnails" },
    Retry := { MaxRetries := maxRetries, RetryBackoffSeconds := 60 },
    LogLevel := "info" }

/-- A job descriptor for the video `videoID`. -/
def videoMessage (videoID : String) : VideoUploadMessage :=
  { VideoID := videoID, FileName := "clip.mp4", UploadFilePath := "uploads/videos/clip.mp4",
    OriginalFormat := "mp4", UploaderID := "u1", Title := "clip", Description := "" }

/-- A delivery whose redelivery counter is `numDelivered`. -/
def delivery (numDelivered : Nat) : Msg :=
  { Subject := "video.upload.created", Data := [], Metadata := some { NumDelivered := numDelivered } }

/-- The error of a failed transcode. -/
def ffmpegFailed : GoError :=
  errorfW "ffmpeg encoding failed: " (.errorString "exit status 1")

/-- The bundle of a successful transcode of `videoID`. -/
def encoded (videoID : String) : EncodeResult :=
  { HLSPath := filepathJoin ["./outputs/hls", videoID, "playlist.m3u8"],
    ThumbnailPath := filepathJoin ["./outputs/thumbnails", videoID, "thumbnail.jpg"],
    Duration := 42 }

/-- An acknowledging status response. -/
def accepted : StatusResponse := { Success := true, Message := "" }

/-- A world in which every payload decodes to the job `videoID`, the transcode
always fails, and the status service accepts every failure report, answering
`should_retry = true` to the first `retries` reports and `false` afterwards. -/
def failingWorld (videoID : String) (retries : Nat) : Env :=
  { jsonUnmarshal := fun _ => .ok (videoMessage videoID),
    rpcMarkVideoProcessing := fun _ _ => .ok accepted,
    encodeToHLS := fun _ _ _ => .error ffmpegFailed,
    rpcUpdateVideoStatus := fun _ _ => .ok accepted,
    rpcHandleVideoFailure := fun n _ =>
      .ok { Success := true, Message := "", ShouldRetry := decide (n < retries) } }

/-- A world in which every payload decodes to the job `videoID`, the transcode
succeeds, and `update_status` fails on its first `failures` calls (a transport
error) and succeeds afterwards. -/
def flakyStatusWorld (videoID : String) (failures : Nat) : Env :=
  { jsonUnmarshal := fun _ => .ok (videoMessage videoID),
    rpcMarkVideoProcessing := fun _ _ => .ok accepted,
    encodeToHLS := fun _ _ id => .ok (encoded id),
    rpcUpdateVideoStatus := fun n _ =>
      if n < failures then .error (.errorString "rpc error: code = Unavailable") else .ok accepted,
    rpcHandleVideoFailure := fun _ _ => .ok { Success := true, Message := "", ShouldRetry := true } }

/-- The error a status response is turned into by `MarkVideoProcessing` and
`UpdateVideoStatus`, `text` being the method's message. -/
def statusError (text : String) : Except GoError StatusResponse → Option GoError
  | .error err => some (errorfW text err)
  | .ok resp => if !resp.Success then some (errorfS text resp.Message) else none

/-- The answer of the transcoder in the delivery of `msg` handled in state `s`. -/
def encodeAnswer (env : Env) (cfg : Config) (s : Sys) (msg : VideoUploadMessage) :
    Except GoError EncodeResult :=
  env.encodeToHLS (s.calls Event.isEncode) (inputPath cfg msg) msg.VideoID

/-- The answer of the status service to the `j`-th `update_status` call (counted
from 0) of the delivery of `msg` handled in state `s`. -/
def updateAnswer (env : Env) (s : Sys) (msg : VideoUploadMessage) (result : EncodeResult)
    (j : Nat) : Except GoError StatusResponse :=
  env.rpcUpdateVideoStatus (s.calls Event.isUpdate + j)
    (updateVideoStatusRequest msg.VideoID result.HLSPath result.ThumbnailPath result.Duration)

/-- The answer of the status service to the failure report of the delivery of
`msg` handled in state `s`, the transcode having failed with `err`. -/
def reportAnswer (env : Env) (s : Sys) (msg : VideoUploadMessage) (err : GoError) :
    Except GoError HandleVideoFailureResponse :=
  env.rpcHandleVideoFailure (s.calls Event.isFailure)
    (handleVideoFailureRequest msg.VideoID err.Error "ENCODING_FAILED"
      (s.retryTracker.get msg.VideoID))

/-- Whether `msg`, handled in state `s`, is a delivery of the job `videoID` whose
transcode fails. -/
def encodeFailsFor (env : Env) (cfg : Config) (videoID : String) (s : Sys) (msg : Msg) : Bool :=
  match env.jsonUnmarshal msg.Data with
  | .error _ => false
  | .ok videoMsg =>
    decide (videoMsg.VideoID = videoID) &&
      (match encodeAnswer env cfg s videoMsg with
       | .error _ => true
       | .ok _ => false)

/-- Whether some delivery of `msgs`, handled one after the other from state `s`
on, is a delivery of the job `videoID` whose transcode fails. -/
def anyEncodeFailure (env : Env) (cfg : Config) (videoID : String) : Sys → List Msg → Bool
  | _, [] => false
  | s, msg :: rest =>
    encodeFailsFor env cfg videoID s msg ||
      anyEncodeFailure env cfg videoID (handleMessage env cfg s msg).1 rest

/-- The state in which the second delivery of "v1" arrives in the scenario of
the specification: one failed delivery, answered with `should_retry = true`. -/
def afterFirstFailure : Sys :=
  (handleMessage (failingWorld "v1" 1) (configWith 2) NewProcessor (delivery 1)).1

/-- A payload that does not decode: the text `not json`. -/
def malformed : Msg :=
  { Subject := "video.upload.created", Data := [110, 111, 116, 32, 106, 115, 111, 110],
    Metadata := some { NumDelivered := 1 } }

/-- A world whose decoder rejects every payload. -/
def rejectingWorld : Env :=
  { failingWorld "v1" 0 with
    jsonUnmarshal := fun _ => .error (.errorString "invalid character 'o' in literal null") }

/-- A world in which every payload decodes to the job `videoID`, the transcode
always fails and the failure report never gets through. -/
def unreachableWorld (videoID : String) : Env :=
  { failingWorld videoID 0 with
    rpcHandleVideoFailure := fun _ _ => .error (.errorString "rpc error: code = Unavailable") }

/-- A world in which every payload decodes to the job `videoID`, the transcode
succeeds `good` times and fails from then on, and the status service accepts
every call, answering `should_retry = true` to failure reports. -/
def lateFailureWorld (videoID : String) (good : Nat) : Env :=
  { flakyStatusWorld videoID 0 with
    encodeToHLS := fun n _ id => if n < good then .ok (encoded id) else .error ffmpegFailed }

/-! ## The retry loop in the words of the specification -/

/-- The closure that `Process` hands to `WithRetry`: one more `update_status`
call for the encoded job. -/
def updateOperation (env : Env) (videoID : String) (result : EncodeResult) :
    Sys → Sys × Option GoError :=
  fun st => UpdateVideoStatus env st videoID result.HLSPath result.ThumbnailPath result.Duration

/-- Written from the words of the specification, not from the code: a retry of
`operation` bounded by `n` attempts with linear backoff.  `todo` attempts are
left, so the attempt made now is number `n - todo + 1`, counted from 1.  A
success ends the loop; after the failed attempt number `i < n` the loop waits
`i * unit` and tries again; after the failed attempt number `n` it returns the
last error wrapped, without waiting. -/
def boundedRetry (unit : Int) (operation : Sys → Sys × Option GoError) (n : Nat) :
    Nat → Sys → Sys × Option GoError
  | 0, s => (s, some (retriesExhausted n none))
  | todo + 1, s =>
    let r := operation s
    match r.2 with
    | none => (r.1, none)
    | some e =>
      if todo = 0 then (r.1, some (retriesExhausted n (some e)))
      else boundedRetry unit operation n todo (r.1.record (.Sleep (((n - todo : Nat) : Int) * unit)))

/-- Five seconds as a `time.Duration`, in nanoseconds. -/
def fiveSeconds : Int := 5 * 1000000000

/-- The configured retry backoff `RetryBackoffSeconds` as a `time.Duration`, in
nanoseconds. -/
def configuredBackoff (cfg : Config) : Int := cfg.Retry.RetryBackoffSeconds * 1000000000

/-! ## Containment of the directories removed by the cleanup -/

/-- The elements of a cleaned path, without the empty and the `.` ones. -/
def pathElems (p : String) : List (List Char) :=
  (splitSep (cleanChars p.data)).filter (fun e => decide (e ≠ []) && decide (e ≠ ['.']))

/-- Whether a cleaned path starts at the file system root. -/
def isRooted (p : String) : Bool :=
  match cleanChars p.data with
  | c :: _ => decide (c = '/')
  | [] => false

/-- Written from the words of the specification: `dir` is a strict descendant
of `root`, that is `dir` lies below `root`, is not `root` itself and does not
leave `root` through `..`. -/
def strictDescendant (root dir : String) : Bool :=
  (isRooted root == isRooted dir) &&
    (pathElems root).isPrefixOf (pathElems dir) &&
    decide ((pathElems root).length < (pathElems dir).length) &&
    !(((pathElems dir).drop (pathElems root).length).contains ['.', '.'])

/-- The two directories that `Cleanup` removes for the job `videoID`. -/
def cleanupDirs (paths : PathsConfig) (videoID : String) : List String :=
  [filepathJoin [paths.OutputHLSPath, videoID], filepathJoin [paths.OutputThumbnailPath, videoID]]

/-! ## Basic facts about the state and the client -/

@[simp] theorem record_trace (s : Sys) (e : Event) : (s.record e).trace = s.trace ++ [e] := rfl

@[simp] theorem record_retryTracker (s : Sys) (e : Event) :
    (s.record e).retryTracker = s.retryTracker := rfl

theorem calls_record (s : Sys) (e : Event) (p : Event → Bool) :
    (s.record e).calls p = s.calls p + (if p e then 1 else 0) := by
  simp [Sys.calls, Sys.record, List.countP_append, List.countP_cons]

theorem get_set_same (m : RetryTracker) (k : String) (v : Int) : (m.set k v) k = some v := by
  simp [RetryTracker.set]

theorem set_other (m : RetryTracker) (k x : String) (v : Int) (h : x ≠ k) :
    (m.set k v) x = m x := by
  simp [RetryTracker.set, h]

theorem delete_same (m : RetryTracker) (k : String) : (m.delete k) k = none := by
  simp [RetryTracker.delete]

theorem delete_other (m : RetryTracker) (k x : String) (h : x ≠ k) :
    (m.delete k) x = m x := by
  simp [RetryTracker.delete, h]

/-- With a non-negative `MaxRetries` that fits a Go `int`, the handler's test on
the redelivery counter is the comparison with `MaxRetries + 1`. -/
theorem maxDeliveriesReached_some (cfg : Config) (md : MsgMetadata)
    (h0 : 0 ≤ cfg.Retry.MaxRetries) (h1 : cfg.Retry.MaxRetries < 2 ^ 63) :
    maxDeliveriesReached cfg (some md)
      = decide (cfg.Retry.MaxRetries + 1 ≤ (md.NumDelivered : Int)) := by
  simp only [maxDeliveriesReached, uint64, goInt, wrapInt]
  norm_num at h1 ⊢
  omega

theorem MarkVideoProcessing_fst (env : Env) (workerID : String) (s : Sys) (videoID : String) :
    (MarkVideoProcessing env workerID s videoID).1 = s.record (.MarkVideoProcessing videoID) := by
  unfold MarkVideoProcessing
  split
  · rfl
  · split <;> rfl

theorem statusError_of_ok (text : String) (r : Except GoError StatusResponse)
    (h : statusOk r = true) : statusError text r = none := by
  cases r <;> simp_all [statusOk, statusError]

theorem statusError_of_fail (text : String) (r : Except GoError StatusResponse)
    (h : statusOk r = false) : ∃ e, statusError text r = some e := by
  cases r <;> simp_all [statusOk, statusError]

theorem UpdateVideoStatus_eq (env : Env) (s : Sys) (v h t : String) (d : Int) :
    UpdateVideoStatus env s v h t d
      = (s.record (.UpdateVideoStatus v h t d),
         statusError "failed to update video status: "
           (env.rpcUpdateVideoStatus (s.calls Event.isUpdate)
             (updateVideoStatusRequest v h t d))) := by
  unfold UpdateVideoStatus statusError
  split
  · rfl
  · split <;> simp_all

theorem HandleVideoFailure_fst (env : Env) (s : Sys) (v r c : String) (n : Int) :
    (HandleVideoFailure env s v r c n).1 = s.record (.HandleVideoFailure v r c n) := by
  unfold HandleVideoFailure
  split
  · rfl
  · split <;> rfl

theorem HandleVideoFailure_snd_ok (env : Env) (s : Sys) (v r c : String) (n : Int)
    (hok : reportOk (env.rpcHandleVideoFailure (s.calls Event.isFailure)
      (handleVideoFailureRequest v r c n)) = true) :
    (HandleVideoFailure env s v r c n).2 = .ok (reportShouldRetry
      (env.rpcHandleVideoFailure (s.calls Event.isFailure) (handleVideoFailureRequest v r c n))) := by
  unfold HandleVideoFailure
  split
  · rename_i e he; rw [he] at hok; simp [reportOk] at hok
  · rename_i resp hr; rw [hr] at hok; simp [reportOk] at hok; simp [hok, hr, reportShouldRetry]

theorem HandleVideoFailure_snd_fail (env : Env) (s : Sys) (v r c : String) (n : Int)
    (hf : reportOk (env.rpcHandleVideoFailure (s.calls Event.isFailure)
      (handleVideoFailureRequest v r c n)) = false) :
    ∃ e, (HandleVideoFailure env s v r c n).2 = .error e := by
  unfold HandleVideoFailure
  split
  · exact ⟨_, rfl⟩
  · rename_i resp hr; rw [hr] at hf; simp [reportOk] at hf; simp [hf]

theorem Cleanup_eq (paths : PathsConfig) (s : Sys) (v : String) :
    Cleanup paths s v
      = (s.record (.RemoveAll (filepathJoin [paths.OutputHLSPath, v]))).record
          (.RemoveAll (filepathJoin [paths.OutputThumbnailPath, v])) := rfl

/-! ## The failure path -/

/-- The trace left by `handleFailure`: two removals and one failure report that
carries the ledger count read before the increment. -/
theorem handleFailure_trace (env : Env) (cfg : Config) (s : Sys) (v : String) (err : GoError)
    (code : String) :
    (handleFailure env cfg s v err code).1.trace
      = s.trace ++ [.RemoveAll (filepathJoin [cfg.Paths.OutputHLSPath, v]),
          .RemoveAll (filepathJoin [cfg.Paths.OutputThumbnailPath, v]),
          .HandleVideoFailure v err.Error code (s.retryTracker.get v)] := by
  unfold handleFailure
  simp only [HandleVideoFailure_fst, Cleanup_eq]
  split
  · simp
  · split <;> simp

/-- When the report gets through, `handleFailure` returns the transcode error
itself and keeps or deletes the incremented entry as the answer says. -/
theorem handleFailure_report_ok (env : Env) (cfg : Config) (s : Sys) (v : String)
    (err : GoError) (code : String)
    (hok : reportOk (env.rpcHandleVideoFailure (s.calls Event.isFailure)
      (handleVideoFailureRequest v err.Error code (s.retryTracker.get v))) = true) :
    (handleFailure env cfg s v err code).2 = some err ∧
    (handleFailure env cfg s v err code).1.retryTracker
      = if reportShouldRetry (env.rpcHandleVideoFailure (s.calls Event.isFailure)
            (handleVideoFailureRequest v err.Error code (s.retryTracker.get v)))
        then s.retryTracker.set v (goInt (s.retryTracker.get v + 1))
        else (s.retryTracker.set v (goInt (s.retryTracker.get v + 1))).delete v := by
  have hidx : (Cleanup cfg.Paths
      (Sys.mk (s.retryTracker.set v (goInt (s.retryTracker.get v + 1))) s.trace) v).calls Event.isFailure
      = s.calls Event.isFailure := by
    simp [Cleanup_eq, calls_record, Event.isFailure, Sys.calls]
  have h := HandleVideoFailure_snd_ok env (Cleanup cfg.Paths
      (Sys.mk (s.retryTracker.set v (goInt (s.retryTracker.get v + 1))) s.trace) v) v err.Error code
      (s.retryTracker.get v) (by rw [hidx]; exact hok)
  rw [hidx] at h
  unfold handleFailure
  simp only [h, HandleVideoFailure_fst]
  cases reportShouldRetry (env.rpcHandleVideoFailure (s.calls Event.isFailure)
    (handleVideoFailureRequest v err.Error code (s.retryTracker.get v))) <;> simp [Cleanup_eq]

/-- When the report does not get through, `handleFailure` wraps the transcode
error and leaves the incremented entry in place. -/
theorem handleFailure_report_fail (env : Env) (cfg : Config) (s : Sys) (v : String)
    (err : GoError) (code : String)
    (hf : reportOk (env.rpcHandleVideoFailure (s.calls Event.isFailure)
      (handleVideoFailureRequest v err.Error code (s.retryTracker.get v))) = false) :
    (handleFailure env cfg s v err code).2
      = some (errorfW "processing failed and couldn't report: " err) ∧
    (handleFailure env cfg s v err code).1.retryTracker
      = s.retryTracker.set v (goInt (s.retryTracker.get v + 1)) := by
  have hidx : (Cleanup cfg.Paths
      (Sys.mk (s.retryTracker.set v (goInt (s.retryTracker.get v + 1))) s.trace) v).calls Event.isFailure
      = s.calls Event.isFailure := by
    simp [Cleanup_eq, calls_record, Event.isFailure, Sys.calls]
  obtain ⟨e, h⟩ := HandleVideoFailure_snd_fail env (Cleanup cfg.Paths
      (Sys.mk (s.retryTracker.set v (goInt (s.retryTracker.get v + 1))) s.trace) v) v err.Error code
      (s.retryTracker.get v) (by rw [hidx]; exact hf)
  unfold handleFailure
  simp only [h, HandleVideoFailure_fst]
  simp [Cleanup_eq]

/-- A failed transcode sends `Process` into `handleFailure`. -/
theorem Process_of_encode_error (env : Env) (cfg : Config) (s : Sys) (msg : VideoUploadMessage)
    (err : GoError) (henc : encodeAnswer env cfg s msg = .error err) :
    Process env cfg s msg
      = handleFailure env cfg
          ((s.record (.MarkVideoProcessing msg.VideoID)).record
            (.EncodeToHLS (inputPath cfg msg) msg.VideoID))
          msg.VideoID err "ENCODING_FAILED" := by
  simp only [encodeAnswer] at henc
  simp [Process, MarkVideoProcessing_fst, EncodeToHLS, calls_record, Event.isEncode, henc]

theorem calls_after_encode (s : Sys) (a b : String) (c : String) :
    ((s.record (.MarkVideoProcessing a)).record (.EncodeToHLS b c)).calls Event.isFailure
      = s.calls Event.isFailure := by
  simp [calls_record, Event.isFailure]

/-- `Process` returns an error whenever the transcode fails. -/
theorem Process_encode_error_isSome (env : Env) (cfg : Config) (s : Sys)
    (msg : VideoUploadMessage) (err : GoError) (henc : encodeAnswer env cfg s msg = .error err) :
    ∃ e, (Process env cfg s msg).2 = some e := by
  rw [Process_of_encode_error env cfg s msg err henc]
  cases hr : reportOk (env.rpcHandleVideoFailure
      (((s.record (.MarkVideoProcessing msg.VideoID)).record
        (.EncodeToHLS (inputPath cfg msg) msg.VideoID)).calls Event.isFailure)
      (handleVideoFailureRequest msg.VideoID err.Error "ENCODING_FAILED"
        (((s.record (.MarkVideoProcessing msg.VideoID)).record
          (.EncodeToHLS (inputPath cfg msg) msg.VideoID)).retryTracker.get msg.VideoID)))
  · exact ⟨_, (handleFailure_report_fail env cfg _ _ err _ hr).1⟩
  · exact ⟨_, (handleFailure_report_ok env cfg _ _ err _ hr).1⟩

/-- The handler's answer to a delivery whose processing returned an error. -/
theorem handleMessage_of_error (env : Env) (cfg : Config) (s : Sys) (msg : Msg)
    (videoMsg : VideoUploadMessage) (e : GoError)
    (hparse : env.jsonUnmarshal msg.Data = .ok videoMsg)
    (herr : (Process env cfg s videoMsg).2 = some e) :
    handleMessage env cfg s msg
      = ((Process env cfg s videoMsg).1,
         if maxDeliveriesReached cfg msg.Metadata then Action.Term else Action.Nak) := by
  unfold handleMessage
  simp only [hparse, herr]
  split <;> rfl

/-- The handler's answer below and at the delivery ceiling, for a delivery whose
processing returned an error. -/
theorem handleMessage_ceiling (env : Env) (cfg : Config) (s : Sys) (msg : Msg)
    (md : MsgMetadata) (videoMsg : VideoUploadMessage) (e : GoError)
    (hparse : env.jsonUnmarshal msg.Data = .ok videoMsg)
    (herr : (Process env cfg s videoMsg).2 = some e)
    (hmeta : msg.Metadata = some md)
    (h0 : 0 ≤ cfg.Retry.MaxRetries) (h1 : cfg.Retry.MaxRetries < 2 ^ 63) :
    (handleMessage env cfg s msg).2
      = if (md.NumDelivered : Int) < cfg.Retry.MaxRetries + 1 then Action.Nak else Action.Term := by
  rw [handleMessage_of_error env cfg s msg videoMsg e hparse herr, hmeta,
    maxDeliveriesReached_some cfg md h0 h1]
  by_cases h : (md.NumDelivered : Int) < cfg.Retry.MaxRetries + 1
  · have h2 : ¬ (cfg.Retry.MaxRetries + 1 ≤ (md.NumDelivered : Int)) := by omega
    simp [h, h2]
  · have h2 : cfg.Retry.MaxRetries + 1 ≤ (md.NumDelivered : Int) := by omega
    simp [h, h2]

theorem Process_encode_error_trace (env : Env) (cfg : Config) (s : Sys)
    (msg : VideoUploadMessage) (err : GoError) (henc : encodeAnswer env cfg s msg = .error err) :
    (Process env cfg s msg).1.trace
      = s.trace ++ [.MarkVideoProcessing msg.VideoID,
          .EncodeToHLS (inputPath cfg msg) msg.VideoID,
          .RemoveAll (filepathJoin [cfg.Paths.OutputHLSPath, msg.VideoID]),
          .RemoveAll (filepathJoin [cfg.Paths.OutputThumbnailPath, msg.VideoID]),
          .HandleVideoFailure msg.VideoID err.Error "ENCODING_FAILED"
            (s.retryTracker.get msg.VideoID)] := by
  rw [Process_of_encode_error env cfg s msg err henc, handleFailure_trace]
  simp

theorem Process_encode_error_report_ok (env : Env) (cfg : Config) (s : Sys)
    (msg : VideoUploadMessage) (err : GoError) (henc : encodeAnswer env cfg s msg = .error err)
    (hok : reportOk (reportAnswer env s msg err) = true) :
    (Process env cfg s msg).2 = some err ∧
    (Process env cfg s msg).1.retryTracker
      = if reportShouldRetry (reportAnswer env s msg err)
        then s.retryTracker.set msg.VideoID (goInt (s.retryTracker.get msg.VideoID + 1))
        else (s.retryTracker.set msg.VideoID
          (goInt (s.retryTracker.get msg.VideoID + 1))).delete msg.VideoID := by
  rw [Process_of_encode_error env cfg s msg err henc]
  have h := handleFailure_report_ok env cfg
    ((s.record (.MarkVideoProcessing msg.VideoID)).record
      (.EncodeToHLS (inputPath cfg msg) msg.VideoID)) msg.VideoID err "ENCODING_FAILED"
    (by simpa [calls_after_encode, reportAnswer] using hok)
  simpa [calls_after_encode, reportAnswer] using h

theorem Process_encode_error_report_fail (env : Env) (cfg : Config) (s : Sys)
    (msg : VideoUploadMessage) (err : GoError) (henc : encodeAnswer env cfg s msg = .error err)
    (hf : reportOk (reportAnswer env s msg err) = false) :
    (Process env cfg s msg).2 = some (errorfW "processing failed and couldn't report: " err) ∧
    (Process env cfg s msg).1.retryTracker
      = s.retryTracker.set msg.VideoID (goInt (s.retryTracker.get msg.VideoID + 1)) := by
  rw [Process_of_encode_error env cfg s msg err henc]
  have h := handleFailure_report_fail env cfg
    ((s.record (.MarkVideoProcessing msg.VideoID)).record
      (.EncodeToHLS (inputPath cfg msg) msg.VideoID)) msg.VideoID err "ENCODING_FAILED"
    (by simpa [calls_after_encode, reportAnswer] using hf)
  simpa [calls_after_encode, reportAnswer] using h

/-! ## The retry loop and the trace -/

/-- The retry loop leaves the ledger alone when the operation does. -/
theorem withRetryLoop_retryTracker (op : Sys → Sys × Option GoError) (m : Int)
    (hop : ∀ S, (op S).1.retryTracker = S.retryTracker) :
    ∀ (fuel : Nat) (i : Int) (err : Option GoError) (S : Sys),
      (withRetryLoop op m fuel i err S).1.retryTracker = S.retryTracker := by
  intro fuel
  induction fuel with
  | zero => intro i err S; rfl
  | succ n ih =>
    intro i err S
    simp only [withRetryLoop]
    split
    · split
      · exact hop S
      · rw [ih]
        split
        · simp [hop S]
        · exact hop S
    · rfl

/-- The retry loop only appends to the trace when the operation does. -/
theorem withRetryLoop_trace (op : Sys → Sys × Option GoError) (m : Int)
    (hop : ∀ S, ∃ rest, (op S).1.trace = S.trace ++ rest) :
    ∀ (fuel : Nat) (i : Int) (err : Option GoError) (S : Sys),
      ∃ rest, (withRetryLoop op m fuel i err S).1.trace = S.trace ++ rest := by
  intro fuel
  induction fuel with
  | zero => intro i err S; exact ⟨[], by simp [withRetryLoop]⟩
  | succ n ih =>
    intro i err S
    obtain ⟨r1, hr1⟩ := hop S
    simp only [withRetryLoop]
    split
    · split
      · exact ⟨r1, hr1⟩
      · rename_i e _
        split
        · obtain ⟨r2, hr2⟩ := ih (i + 1) (some e) ((op S).1.record (.Sleep (waitTime i)))
          refine ⟨r1 ++ .Sleep (waitTime i) :: r2, ?_⟩
          rw [hr2, record_trace, hr1]
          simp
        · obtain ⟨r2, hr2⟩ := ih (i + 1) (some e) (op S).1
          refine ⟨r1 ++ r2, ?_⟩
          rw [hr2, hr1]
          simp
    · exact ⟨[], by simp⟩

/-- Every call of `Process` starts with the heartbeat, so it shows in the trace. -/
theorem Process_trace (env : Env) (cfg : Config) (s : Sys) (msg : VideoUploadMessage) :
    ∃ rest, (Process env cfg s msg).1.trace
      = s.trace ++ .MarkVideoProcessing msg.VideoID :: rest := by
  cases henc : encodeAnswer env cfg s msg with
  | error err =>
    rw [Process_encode_error_trace env cfg s msg err henc]
    exact ⟨_, rfl⟩
  | ok result =>
    simp only [encodeAnswer] at henc
    obtain ⟨r, hr⟩ := withRetryLoop_trace
      (fun st => UpdateVideoStatus env st msg.VideoID result.HLSPath result.ThumbnailPath
        result.Duration) 3
      (fun S => ⟨[.UpdateVideoStatus msg.VideoID result.HLSPath result.ThumbnailPath
        result.Duration], by simp [UpdateVideoStatus_eq]⟩) (3 : Int).toNat 0 none
      ((((s.record (.MarkVideoProcessing msg.VideoID)).record
        (.EncodeToHLS (inputPath cfg msg) msg.VideoID))).record
          (.UpdateVideoStatus msg.VideoID result.HLSPath result.ThumbnailPath result.Duration))
    simp only [Process, MarkVideoProcessing_fst, EncodeToHLS, calls_record, Event.isEncode, henc,
      UpdateVideoStatus_eq, WithRetry] at hr ⊢
    simp only [Bool.false_eq_true, if_false, Nat.add_zero] at hr ⊢
    simp only [henc]
    split
    · simp only [record_trace, List.append_assoc, List.singleton_append, List.cons_append,
        List.nil_append]
      exact ⟨_, rfl⟩
    · split
      · simp only [hr, record_trace, List.append_assoc, List.singleton_append, List.cons_append,
          List.nil_append]
        exact ⟨_, rfl⟩
      · simp only [hr, record_trace, List.append_assoc, List.singleton_append, List.cons_append,
          List.nil_append]
        exact ⟨_, rfl⟩

/-- A successful transcode never touches the ledger. -/
theorem Process_encode_ok_retryTracker (env : Env) (cfg : Config) (s : Sys)
    (msg : VideoUploadMessage) (result : EncodeResult)
    (henc : encodeAnswer env cfg s msg = .ok result) :
    (Process env cfg s msg).1.retryTracker = s.retryTracker := by
  simp only [encodeAnswer] at henc
  have hl := withRetryLoop_retryTracker
      (fun st => UpdateVideoStatus env st msg.VideoID result.HLSPath result.ThumbnailPath
        result.Duration) 3 (fun S => by simp [UpdateVideoStatus_eq]) (3 : Int).toNat 0 none
      ((((s.record (.MarkVideoProcessing msg.VideoID)).record
        (.EncodeToHLS (inputPath cfg msg) msg.VideoID))).record
          (.UpdateVideoStatus msg.VideoID result.HLSPath result.ThumbnailPath result.Duration))
  simp only [Process, MarkVideoProcessing_fst, EncodeToHLS, calls_record, Event.isEncode, henc,
      UpdateVideoStatus_eq, WithRetry] at hl ⊢
  simp only [Bool.false_eq_true, if_false, Nat.add_zero] at hl ⊢
  simp only [henc]
  split
  · simp
  · split
    · simp only [hl]; simp
    · simp only [hl]; simp

/-- The fuel of the retry loop is never the reason it stops: any fuel of at
least the `maxRetries - i` iterations that remain gives the same run. -/
theorem withRetryLoop_enough_fuel (op : Sys → Sys × Option GoError) (m : Int) :
    ∀ (fuel : Nat) (i : Int) (err : Option GoError) (S : Sys), (m - i).toNat ≤ fuel →
      withRetryLoop op m fuel i err S = withRetryLoop op m (m - i).toNat i err S := by
  intro fuel
  induction fuel with
  | zero =>
    intro i err S h
    have h0 : (m - i).toNat = 0 := by omega
    rw [h0]
  | succ n ih =>
    intro i err S h
    by_cases hlt : i < m
    · have hs : (m - i).toNat = (m - (i + 1)).toNat + 1 := by omega
      rw [hs]
      simp only [withRetryLoop, hlt, if_true]
      split
      · rfl
      · exact ih _ _ _ (by omega)
    · have h0 : (m - i).toNat = 0 := by omega
      rw [h0]
      simp only [withRetryLoop, hlt, if_false]

/-! ## Runs of several deliveries -/

/-- Once the payload is decoded, the state after the handler is the state
after `Process`. -/
theorem handleMessage_fst (env : Env) (cfg : Config) (s : Sys) (msg : Msg)
    (videoMsg : VideoUploadMessage) (hparse : env.jsonUnmarshal msg.Data = .ok videoMsg) :
    (handleMessage env cfg s msg).1 = (Process env cfg s videoMsg).1 := by
  unfold handleMessage
  simp only [hparse]
  split
  · split <;> rfl
  · rfl

/-- `Process` never touches the ledger entry of another job. -/
theorem Process_other_entries (env : Env) (cfg : Config) (s : Sys) (msg : VideoUploadMessage)
    (other : String) (hne : other ≠ msg.VideoID) :
    (Process env cfg s msg).1.retryTracker other = s.retryTracker other := by
  cases henc : encodeAnswer env cfg s msg with
  | ok result => rw [Process_encode_ok_retryTracker env cfg s msg result henc]
  | error err =>
    cases hr : reportOk (reportAnswer env s msg err) with
    | false =>
      rw [(Process_encode_error_report_fail env cfg s msg err henc hr).2,
        set_other _ _ _ _ hne]
    | true =>
      rw [(Process_encode_error_report_ok env cfg s msg err henc hr).2]
      split
      · rw [set_other _ _ _ _ hne]
      · rw [delete_other _ _ _ hne, set_other _ _ _ _ hne]

/-- A delivery that is not a failed transcode of `videoID` leaves the ledger
entry of `videoID` as it was. -/
theorem handleMessage_keeps_entry (env : Env) (cfg : Config) (videoID : String) (s : Sys)
    (msg : Msg) (h : encodeFailsFor env cfg videoID s msg = false) :
    (handleMessage env cfg s msg).1.retryTracker videoID = s.retryTracker videoID := by
  cases hparse : env.jsonUnmarshal msg.Data with
  | error e =>
    unfold handleMessage
    simp only [hparse]
  | ok videoMsg =>
    rw [handleMessage_fst env cfg s msg videoMsg hparse]
    cases henc : encodeAnswer env cfg s videoMsg with
    | ok result => rw [Process_encode_ok_retryTracker env cfg s videoMsg result henc]
    | error err =>
      have hne : videoID ≠ videoMsg.VideoID := by
        intro heq
        simp [encodeFailsFor, hparse, henc, heq] at h
      exact Process_other_entries env cfg s videoMsg videoID hne

/-- As long as no delivery is a failed transcode of `videoID`, a ledger without
an entry for `videoID` stays without one. -/
theorem handleAll_keeps_absent (env : Env) (cfg : Config) (videoID : String) :
    ∀ (msgs : List Msg) (s : Sys), s.retryTracker videoID = none →
      anyEncodeFailure env cfg videoID s msgs = false →
      (handleAll env cfg s msgs).retryTracker videoID = none := by
  intro msgs
  induction msgs with
  | nil => intro s hs _; exact hs
  | cons msg rest ih =>
    intro s hs hany
    simp only [anyEncodeFailure, Bool.or_eq_false_iff] at hany
    have hstep := handleMessage_keeps_entry env cfg videoID s msg hany.1
    have := ih (handleMessage env cfg s msg).1 (by rw [hstep]; exact hs) hany.2
    simpa [handleAll] using this

theorem handleAll_append (env : Env) (cfg : Config) (s : Sys) (msgs : List Msg) (msg : Msg) :
    handleAll env cfg s (msgs ++ [msg])
      = (handleMessage env cfg (handleAll env cfg s msgs) msg).1 := by
  simp [handleAll, List.foldl_append]

/-! ## Counting and shaping the retry loop -/

/-- One `update_status` call adds exactly one such call to the trace. -/
theorem updateOperation_calls (env : Env) (videoID : String) (result : EncodeResult) (S : Sys) :
    (updateOperation env videoID result S).1.calls Event.isUpdate
      = S.calls Event.isUpdate + 1 := by
  simp [updateOperation, UpdateVideoStatus_eq, calls_record, Event.isUpdate]

/-- The retry loop calls the operation at most once per unit of fuel. -/
theorem withRetryLoop_calls_le (op : Sys → Sys × Option GoError) (m : Int)
    (hop : ∀ S, (op S).1.calls Event.isUpdate = S.calls Event.isUpdate + 1) :
    ∀ (fuel : Nat) (i : Int) (err : Option GoError) (S : Sys),
      (withRetryLoop op m fuel i err S).1.calls Event.isUpdate
        ≤ S.calls Event.isUpdate + fuel := by
  intro fuel
  induction fuel with
  | zero => intro i err S; simp [withRetryLoop]
  | succ n ih =>
    intro i err S
    simp only [withRetryLoop]
    split
    · split
      · rw [hop S]; omega
      · rename_i e _
        split
        · have h := ih (i + 1) (some e) ((op S).1.record (.Sleep (waitTime i)))
          rw [calls_record, hop S] at h
          simp only [Event.isUpdate] at h
          simp at h
          omega
        · have h := ih (i + 1) (some e) (op S).1
          rw [hop S] at h
          omega
    · simp

/-- The wait after the failed attempt number `i + 1` is `(i + 1)` times five
seconds as long as that fits a 64-bit duration. -/
theorem waitTime_linear (i : Nat) (h : ((i : Int) + 1) * 5000000000 < 2 ^ 63) :
    waitTime i = ((i : Int) + 1) * fiveSeconds := by
  simp only [waitTime, wrapInt, fiveSeconds]
  norm_num at h ⊢
  omega

/-- The loop of the code and the loop of the specification with a unit of five
seconds run alike from any attempt on. -/
theorem withRetryLoop_eq_boundedRetry (op : Sys → Sys × Option GoError) (n : Nat)
    (hn : (n : Int) * 5000000000 < 2 ^ 63) :
    ∀ (todo i : Nat) (err : Option GoError) (S : Sys), i + (todo + 1) = n →
      withRetryLoop op n (todo + 1) i err S = boundedRetry fiveSeconds op n (todo + 1) S := by
  intro todo
  induction todo with
  | zero =>
    intro i err S hi
    have hlt : (i : Int) < (n : Int) := by omega
    have hlast : ¬ ((i : Int) < (n : Int) - 1) := by omega
    simp only [withRetryLoop, boundedRetry, hlt, hlast, if_true, if_false]
  | succ k ih =>
    intro i err S hi
    have hlt : (i : Int) < (n : Int) := by omega
    have hmore : (i : Int) < (n : Int) - 1 := by omega
    have hk : k + 1 ≠ 0 := by omega
    have hidx : (((n - (k + 1) : Nat) : Int)) = (i : Int) + 1 := by omega
    have hbound : ((i : Int) + 1) * 5000000000 < 2 ^ 63 := by
      norm_num at hn ⊢
      omega
    simp only [withRetryLoop, hlt, hmore, if_true]
    rw [boundedRetry]
    simp only [hk, if_false, hidx]
    split
    · rfl
    · rename_i e _
      rw [waitTime_linear i hbound]
      have := ih (i + 1) (some e) ((op S).1.record (.Sleep (((i : Int) + 1) * fiveSeconds)))
        (by omega)
      simpa using this

/-- The retry loop never takes calls back. -/
theorem withRetryLoop_calls_ge (op : Sys → Sys × Option GoError) (m : Int)
    (hop : ∀ S, ∃ rest, (op S).1.trace = S.trace ++ rest)
    (fuel : Nat) (i : Int) (err : Option GoError) (S : Sys) :
    S.calls Event.isUpdate ≤ (withRetryLoop op m fuel i err S).1.calls Event.isUpdate := by
  obtain ⟨rest, h⟩ := withRetryLoop_trace op m hop fuel i err S
  simp [Sys.calls, h, List.countP_append]

/-- The directories removed by `Cleanup` are those of `cleanupDirs`. -/
theorem Cleanup_dirs (paths : PathsConfig) (s : Sys) (videoID : String) :
    Cleanup paths s videoID
      = (cleanupDirs paths videoID).foldl (fun st dir => st.record (.RemoveAll dir)) s := rfl

/-- Joining a non-empty root with the empty job ID gives the cleaned root. -/
theorem filepathJoin_empty_id (root : String) (h : root.data ≠ []) :
    filepathJoin [root, ""] = filepathClean root := by
  simp [filepathJoin, filepathClean, h, joinSep]

/-! ## The claims -/

/-- C1, as stated, fails: in the scenario of the specification (job "v1",
`max_retries = 2`, second delivery with counter 2, the transcode fails and the
reporter accepts the report with `should_retry = false`) the handler sends a
negative acknowledgement, not a termination. -/
theorem terminal_outcome_is_not_terminated :
    encodeAnswer (failingWorld "v1" 1) (configWith 2) afterFirstFailure (videoMessage "v1")
      = .error ffmpegFailed ∧
    reportOk (reportAnswer (failingWorld "v1" 1) afterFirstFailure (videoMessage "v1")
      ffmpegFailed) = true ∧
    reportShouldRetry (reportAnswer (failingWorld "v1" 1) afterFirstFailure (videoMessage "v1")
      ffmpegFailed) = false ∧
    (delivery 2).Metadata = some { NumDelivered := 2 } ∧
    ((2 : Nat) : Int) < (configWith 2).Retry.MaxRetries + 1 ∧
    (handleMessage (failingWorld "v1" 1) (configWith 2) afterFirstFailure (delivery 2)).2
      = Action.Nak ∧
    (handleMessage (failingWorld "v1" 1) (configWith 2) afterFirstFailure (delivery 2)).2
      ≠ Action.Term := by
  decide

/-- C1 (amended): when the transcode fails and the reporter accepts the failure
report with `should_retry = false`, `Process` returns the transcode error like
for any other failure, and with delivery metadata available, `0 ≤ max_retries`
and a redelivery counter below `max_retries + 1` the handler sends a negative
acknowledgement. -/
theorem terminal_outcome_below_ceiling_is_nak (env : Env) (cfg : Config) (s : Sys) (msg : Msg)
    (md : MsgMetadata) (videoMsg : VideoUploadMessage) (err : GoError)
    (hparse : env.jsonUnmarshal msg.Data = .ok videoMsg)
    (henc : encodeAnswer env cfg s videoMsg = .error err)
    (hok : reportOk (reportAnswer env s videoMsg err) = true)
    (_hterm : reportShouldRetry (reportAnswer env s videoMsg err) = false)
    (hmeta : msg.Metadata = some md)
    (h0 : 0 ≤ cfg.Retry.MaxRetries) (h1 : cfg.Retry.MaxRetries < 2 ^ 63)
    (hlt : (md.NumDelivered : Int) < cfg.Retry.MaxRetries + 1) :
    (Process env cfg s videoMsg).2 = some err ∧
    (handleMessage env cfg s msg).2 = Action.Nak := by
  have hres := (Process_encode_error_report_ok env cfg s videoMsg err henc hok).1
  refine ⟨hres, ?_⟩
  rw [handleMessage_ceiling env cfg s msg md videoMsg err hparse hres hmeta h0 h1]
  simp [hlt]

/-- Witness of C1 (amended): the second delivery of "v1" in the scenario of the
specification. -/
theorem terminal_outcome_below_ceiling_is_nak_witness :
    (Process (failingWorld "v1" 1) (configWith 2) afterFirstFailure (videoMessage "v1")).2
      = some ffmpegFailed ∧
    (handleMessage (failingWorld "v1" 1) (configWith 2) afterFirstFailure (delivery 2)).2
      = Action.Nak :=
  terminal_outcome_below_ceiling_is_nak (failingWorld "v1" 1) (configWith 2) afterFirstFailure
    (delivery 2) { NumDelivered := 2 } (videoMessage "v1") ffmpegFailed
    (by rfl) (by decide) (by decide) (by decide) (by rfl) (by decide) (by decide) (by decide)

/-- C2: when the transcode fails and the reporter accepts the failure report
with `should_retry = true`, with delivery metadata available and
`0 ≤ max_retries`, the handler sends a negative acknowledgement exactly when the
redelivery counter is below `max_retries + 1` and a termination exactly when the
counter has reached `max_retries + 1`. -/
theorem retryable_outcome_follows_ceiling (env : Env) (cfg : Config) (s : Sys) (msg : Msg)
    (md : MsgMetadata) (videoMsg : VideoUploadMessage) (err : GoError)
    (hparse : env.jsonUnmarshal msg.Data = .ok videoMsg)
    (henc : encodeAnswer env cfg s videoMsg = .error err)
    (hok : reportOk (reportAnswer env s videoMsg err) = true)
    (_hretry : reportShouldRetry (reportAnswer env s videoMsg err) = true)
    (hmeta : msg.Metadata = some md)
    (h0 : 0 ≤ cfg.Retry.MaxRetries) (h1 : cfg.Retry.MaxRetries < 2 ^ 63) :
    ((handleMessage env cfg s msg).2 = Action.Nak
      ↔ (md.NumDelivered : Int) < cfg.Retry.MaxRetries + 1) ∧
    ((handleMessage env cfg s msg).2 = Action.Term
      ↔ cfg.Retry.MaxRetries + 1 ≤ (md.NumDelivered : Int)) := by
  have hres := (Process_encode_error_report_ok env cfg s videoMsg err henc hok).1
  rw [handleMessage_ceiling env cfg s msg md videoMsg err hparse hres hmeta h0 h1]
  by_cases h : (md.NumDelivered : Int) < cfg.Retry.MaxRetries + 1
  · have h2 : ¬ (cfg.Retry.MaxRetries + 1 ≤ (md.NumDelivered : Int)) := by omega
    simp [h, h2]
  · have h2 : cfg.Retry.MaxRetries + 1 ≤ (md.NumDelivered : Int) := by omega
    simp [h, h2]

/-- Witness of C2: a third delivery of "v1" with `max_retries = 2`, answered with
`should_retry = true`. -/
theorem retryable_outcome_follows_ceiling_witness :
    ((handleMessage (failingWorld "v1" 5) (configWith 2) afterFirstFailure (delivery 3)).2
        = Action.Nak
      ↔ ((3 : Nat) : Int) < (configWith 2).Retry.MaxRetries + 1) ∧
    ((handleMessage (failingWorld "v1" 5) (configWith 2) afterFirstFailure (delivery 3)).2
        = Action.Term
      ↔ (configWith 2).Retry.MaxRetries + 1 ≤ ((3 : Nat) : Int)) :=
  retryable_outcome_follows_ceiling (failingWorld "v1" 5) (configWith 2) afterFirstFailure
    (delivery 3) { NumDelivered := 3 } (videoMessage "v1") ffmpegFailed
    (by rfl) (by decide) (by decide) (by decide) (by rfl) (by decide) (by decide)

/-- C3: a payload that fails to decode is terminated and the state is left as
it was: nothing is recorded in the trace and the ledger is untouched, whereas
any call of `Process` would have added its heartbeat to the trace. -/
theorem malformed_payload_is_terminated (env : Env) (cfg : Config) (s : Sys) (msg : Msg)
    (e : GoError) (hparse : env.jsonUnmarshal msg.Data = .error e) :
    handleMessage env cfg s msg = (s, Action.Term) ∧
    (handleMessage env cfg s msg).2 ≠ Action.Nak ∧
    (handleMessage env cfg s msg).2 ≠ Action.Ack ∧
    (∀ videoMsg, (Process env cfg s videoMsg).1.trace ≠ s.trace) := by
  have h : handleMessage env cfg s msg = (s, Action.Term) := by
    unfold handleMessage
    simp only [hparse]
  refine ⟨h, by simp [h], by simp [h], ?_⟩
  intro videoMsg heq
  obtain ⟨rest, hrest⟩ := Process_trace env cfg s videoMsg
  rw [heq] at hrest
  simp at hrest

/-- Witness of C3: a payload that is not JSON, arriving after one failed delivery. -/
theorem malformed_payload_is_terminated_witness :
    handleMessage rejectingWorld (configWith 2) afterFirstFailure malformed
      = (afterFirstFailure, Action.Term) ∧
    (handleMessage rejectingWorld (configWith 2) afterFirstFailure malformed).2 ≠ Action.Nak ∧
    (handleMessage rejectingWorld (configWith 2) afterFirstFailure malformed).2 ≠ Action.Ack ∧
    (∀ videoMsg, (Process rejectingWorld (configWith 2) afterFirstFailure videoMsg).1.trace
      ≠ afterFirstFailure.trace) :=
  malformed_payload_is_terminated rejectingWorld (configWith 2) afterFirstFailure malformed
    (.errorString "invalid character 'o' in literal null") (by rfl)

/-- C4: if the transcode succeeds and `update_status` succeeds on its `k`-th
call, `1 ≤ k ≤ 3`, all earlier calls failing, then `Process` returns no error
after exactly `k` `update_status` calls, the handler acknowledges the message,
no directory is removed, no failure is reported and the ledger is what it was
before the delivery. -/
theorem status_update_retry_succeeds (env : Env) (cfg : Config) (s : Sys) (msg : Msg)
    (videoMsg : VideoUploadMessage) (result : EncodeResult) (k : Nat)
    (hparse : env.jsonUnmarshal msg.Data = .ok videoMsg)
    (henc : encodeAnswer env cfg s videoMsg = .ok result)
    (hk1 : 1 ≤ k) (hk3 : k ≤ 3)
    (hfail : ∀ j, j < k - 1 → statusOk (updateAnswer env s videoMsg result j) = false)
    (hok : statusOk (updateAnswer env s videoMsg result (k - 1)) = true) :
    (Process env cfg s videoMsg).2 = none ∧
    (Process env cfg s videoMsg).1.calls Event.isUpdate = s.calls Event.isUpdate + k ∧
    (handleMessage env cfg s msg).2 = Action.Ack ∧
    (handleMessage env cfg s msg).1 = (Process env cfg s videoMsg).1 ∧
    (Process env cfg s videoMsg).1.calls Event.isRemoveAll = s.calls Event.isRemoveAll ∧
    (Process env cfg s videoMsg).1.calls Event.isFailure = s.calls Event.isFailure ∧
    (Process env cfg s videoMsg).1.retryTracker = s.retryTracker := by
  have hres : (Process env cfg s videoMsg).2 = none ∧
      (Process env cfg s videoMsg).1.calls Event.isUpdate = s.calls Event.isUpdate + k ∧
      (Process env cfg s videoMsg).1.calls Event.isRemoveAll = s.calls Event.isRemoveAll ∧
      (Process env cfg s videoMsg).1.calls Event.isFailure = s.calls Event.isFailure := by
    have hk : k = 1 ∨ k = 2 ∨ k = 3 := by omega
    simp only [encodeAnswer] at henc
    rcases hk with rfl | rfl | rfl
    · have h0 := statusError_of_ok "failed to update video status: " _ hok
      simp only [updateAnswer] at h0
      simp at h0
      simp [Process, MarkVideoProcessing_fst, EncodeToHLS, UpdateVideoStatus_eq, calls_record,
        Event.isEncode, Event.isUpdate, Event.isRemoveAll, Event.isFailure, henc, h0]
    · obtain ⟨e0, h0⟩ := statusError_of_fail "failed to update video status: " _
        (hfail 0 (by omega))
      have h1 := statusError_of_ok "failed to update video status: " _ hok
      simp only [updateAnswer] at h0 h1
      simp at h0 h1
      simp [Process, MarkVideoProcessing_fst, EncodeToHLS, UpdateVideoStatus_eq, calls_record,
        Event.isEncode, Event.isUpdate, Event.isRemoveAll, Event.isFailure, henc, h0, h1,
        WithRetry, withRetryLoop]
    · obtain ⟨e0, h0⟩ := statusError_of_fail "failed to update video status: " _
        (hfail 0 (by omega))
      obtain ⟨e1, h1⟩ := statusError_of_fail "failed to update video status: " _
        (hfail 1 (by omega))
      have h2 := statusError_of_ok "failed to update video status: " _ hok
      simp only [updateAnswer] at h0 h1 h2
      simp at h0 h1 h2
      simp [Process, MarkVideoProcessing_fst, EncodeToHLS, UpdateVideoStatus_eq, calls_record,
        Event.isEncode, Event.isUpdate, Event.isRemoveAll, Event.isFailure, henc, h0, h1, h2,
        WithRetry, withRetryLoop]
  obtain ⟨h1, h2, h3, h4⟩ := hres
  have hm : handleMessage env cfg s msg = ((Process env cfg s videoMsg).1, Action.Ack) := by
    unfold handleMessage
    simp only [hparse, h1]
  refine ⟨h1, h2, by rw [hm], by rw [hm], h3, h4, ?_⟩
  exact Process_encode_ok_retryTracker env cfg s videoMsg result henc

/-- Witness of C4: job "v2", `update_status` failing twice and succeeding on the
third call. -/
theorem status_update_retry_succeeds_witness :
    (Process (flakyStatusWorld "v2" 2) (configWith 2) afterFirstFailure (videoMessage "v2")).2
      = none ∧
    (Process (flakyStatusWorld "v2" 2) (configWith 2) afterFirstFailure
      (videoMessage "v2")).1.calls Event.isUpdate = afterFirstFailure.calls Event.isUpdate + 3 ∧
    (handleMessage (flakyStatusWorld "v2" 2) (configWith 2) afterFirstFailure (delivery 1)).2
      = Action.Ack ∧
    (handleMessage (flakyStatusWorld "v2" 2) (configWith 2) afterFirstFailure (delivery 1)).1
      = (Process (flakyStatusWorld "v2" 2) (configWith 2) afterFirstFailure
          (videoMessage "v2")).1 ∧
    (Process (flakyStatusWorld "v2" 2) (configWith 2) afterFirstFailure
      (videoMessage "v2")).1.calls Event.isRemoveAll
        = afterFirstFailure.calls Event.isRemoveAll ∧
    (Process (flakyStatusWorld "v2" 2) (configWith 2) afterFirstFailure
      (videoMessage "v2")).1.calls Event.isFailure = afterFirstFailure.calls Event.isFailure ∧
    (Process (flakyStatusWorld "v2" 2) (configWith 2) afterFirstFailure
      (videoMessage "v2")).1.retryTracker = afterFirstFailure.retryTracker :=
  status_update_retry_succeeds (flakyStatusWorld "v2" 2) (configWith 2) afterFirstFailure
    (delivery 1) (videoMessage "v2") (encoded "v2") 3 (by rfl) (by decide) (by decide)
    (by decide) (by decide) (by decide)

/-- C5, as stated, fails: for the job "v2" with `max_retries = 2` on its third
delivery, the transcode succeeds and all four `update_status` calls fail; the
handler then terminates the message, so it is not eligible for redelivery. -/
theorem exhausted_update_at_ceiling_is_terminated :
    (flakyStatusWorld "v2" 4).jsonUnmarshal (delivery 3).Data = .ok (videoMessage "v2") ∧
    encodeAnswer (flakyStatusWorld "v2" 4) (configWith 2) NewProcessor (videoMessage "v2")
      = .ok (encoded "v2") ∧
    (∀ j, j < 4 → statusOk (updateAnswer (flakyStatusWorld "v2" 4) NewProcessor
      (videoMessage "v2") (encoded "v2") j) = false) ∧
    (handleMessage (flakyStatusWorld "v2" 4) (configWith 2) NewProcessor (delivery 3)).2
      = Action.Term ∧
    (handleMessage (flakyStatusWorld "v2" 4) (configWith 2) NewProcessor (delivery 3)).2
      ≠ Action.Nak := by
  decide

/-- C5 (amended): if the transcode succeeds and `update_status` fails on the
first call and on each of the three calls of the retry loop, then `Process`
returns an error that wraps the last status error, the handler does not
acknowledge the message, no directory is removed, no failure is reported and
the ledger is untouched.  The message stays eligible for redelivery (a negative
acknowledgement) when no delivery metadata is available or the redelivery
counter is below `max_retries + 1`; once the counter has reached
`max_retries + 1` the handler terminates it. -/
theorem status_update_exhausted (env : Env) (cfg : Config) (s : Sys) (msg : Msg)
    (videoMsg : VideoUploadMessage) (result : EncodeResult)
    (hparse : env.jsonUnmarshal msg.Data = .ok videoMsg)
    (henc : encodeAnswer env cfg s videoMsg = .ok result)
    (hfail : ∀ j, j < 4 → statusOk (updateAnswer env s videoMsg result j) = false) :
    (∃ e, (Process env cfg s videoMsg).2
      = some (errorfW "failed to update video status after retries: " e)) ∧
    (handleMessage env cfg s msg).2 ≠ Action.Ack ∧
    (handleMessage env cfg s msg).2
      = (if maxDeliveriesReached cfg msg.Metadata then Action.Term else Action.Nak) ∧
    (msg.Metadata = none → (handleMessage env cfg s msg).2 = Action.Nak) ∧
    (∀ md, msg.Metadata = some md → 0 ≤ cfg.Retry.MaxRetries → cfg.Retry.MaxRetries < 2 ^ 63 →
      (handleMessage env cfg s msg).2
        = (if (md.NumDelivered : Int) < cfg.Retry.MaxRetries + 1 then Action.Nak
            else Action.Term)) ∧
    (handleMessage env cfg s msg).1 = (Process env cfg s videoMsg).1 ∧
    (Process env cfg s videoMsg).1.calls Event.isUpdate = s.calls Event.isUpdate + 4 ∧
    (Process env cfg s videoMsg).1.calls Event.isRemoveAll = s.calls Event.isRemoveAll ∧
    (Process env cfg s videoMsg).1.calls Event.isFailure = s.calls Event.isFailure ∧
    (Process env cfg s videoMsg).1.retryTracker = s.retryTracker := by
  have hres : (∃ e, (Process env cfg s videoMsg).2
        = some (errorfW "failed to update video status after retries: " e)) ∧
      (Process env cfg s videoMsg).1.calls Event.isUpdate = s.calls Event.isUpdate + 4 ∧
      (Process env cfg s videoMsg).1.calls Event.isRemoveAll = s.calls Event.isRemoveAll ∧
      (Process env cfg s videoMsg).1.calls Event.isFailure = s.calls Event.isFailure := by
    obtain ⟨e0, h0⟩ := statusError_of_fail "failed to update video status: " _
      (hfail 0 (by omega))
    obtain ⟨e1, h1⟩ := statusError_of_fail "failed to update video status: " _
      (hfail 1 (by omega))
    obtain ⟨e2, h2⟩ := statusError_of_fail "failed to update video status: " _
      (hfail 2 (by omega))
    obtain ⟨e3, h3⟩ := statusError_of_fail "failed to update video status: " _
      (hfail 3 (by omega))
    simp only [encodeAnswer] at henc
    simp only [updateAnswer] at h0 h1 h2 h3
    simp at h0 h1 h2 h3
    simp [Process, MarkVideoProcessing_fst, EncodeToHLS, UpdateVideoStatus_eq, calls_record,
      Event.isEncode, Event.isUpdate, Event.isRemoveAll, Event.isFailure, henc, h0, h1, h2, h3,
      WithRetry, withRetryLoop]
  obtain ⟨⟨e, h1⟩, h2, h3, h4⟩ := hres
  have hm := handleMessage_of_error env cfg s msg videoMsg _ hparse h1
  refine ⟨⟨e, h1⟩, ?_, by rw [hm], ?_, ?_, by rw [hm], h2, h3, h4, ?_⟩
  · rw [hm]
    split <;> simp
  · intro hnone
    rw [hm, hnone]
    rfl
  · intro md hmeta h0 hlim
    exact handleMessage_ceiling env cfg s msg md videoMsg _ hparse h1 hmeta h0 hlim
  · exact Process_encode_ok_retryTracker env cfg s videoMsg result henc

/-- Witness of C5 (amended): job "v2" on its third delivery with
`max_retries = 2`, `update_status` failing four times in a row. -/
theorem status_update_exhausted_witness :
    (∃ e, (Process (flakyStatusWorld "v2" 4) (configWith 2) NewProcessor (videoMessage "v2")).2
      = some (errorfW "failed to update video status after retries: " e)) ∧
    (handleMessage (flakyStatusWorld "v2" 4) (configWith 2) NewProcessor (delivery 3)).2
      ≠ Action.Ack ∧
    (handleMessage (flakyStatusWorld "v2" 4) (configWith 2) NewProcessor (delivery 3)).2
      = (if maxDeliveriesReached (configWith 2) (delivery 3).Metadata then Action.Term
          else Action.Nak) ∧
    ((delivery 3).Metadata = none →
      (handleMessage (flakyStatusWorld "v2" 4) (configWith 2) NewProcessor (delivery 3)).2
        = Action.Nak) ∧
    (∀ md, (delivery 3).Metadata = some md → 0 ≤ (configWith 2).Retry.MaxRetries →
      (configWith 2).Retry.MaxRetries < 2 ^ 63 →
      (handleMessage (flakyStatusWorld "v2" 4) (configWith 2) NewProcessor (delivery 3)).2
        = (if (md.NumDelivered : Int) < (configWith 2).Retry.MaxRetries + 1 then Action.Nak
            else Action.Term)) ∧
    (handleMessage (flakyStatusWorld "v2" 4) (configWith 2) NewProcessor (delivery 3)).1
      = (Process (flakyStatusWorld "v2" 4) (configWith 2) NewProcessor (videoMessage "v2")).1 ∧
    (Process (flakyStatusWorld "v2" 4) (configWith 2) NewProcessor
      (videoMessage "v2")).1.calls Event.isUpdate = NewProcessor.calls Event.isUpdate + 4 ∧
    (Process (flakyStatusWorld "v2" 4) (configWith 2) NewProcessor
      (videoMessage "v2")).1.calls Event.isRemoveAll = NewProcessor.calls Event.isRemoveAll ∧
    (Process (flakyStatusWorld "v2" 4) (configWith 2) NewProcessor
      (videoMessage "v2")).1.calls Event.isFailure = NewProcessor.calls Event.isFailure ∧
    (Process (flakyStatusWorld "v2" 4) (configWith 2) NewProcessor
      (videoMessage "v2")).1.retryTracker = NewProcessor.retryTracker :=
  status_update_exhausted (flakyStatusWorld "v2" 4) (configWith 2) NewProcessor (delivery 3)
    (videoMessage "v2") (encoded "v2") (by rfl) (by decide) (by decide)

/-- C6: when the transcode fails, `Process` makes exactly one failure report; it
carries the job ID, the message of the transcode error, the code
`ENCODING_FAILED` and the ledger count read before this call increments it (0
when the job has no entry).  The request handed to the status service holds
the same job ID, reason and code, and the same count as long as it fits the
32-bit field; what the service answers to exactly this request decides the
error returned by `Process` and the ledger entry of the job. -/
theorem report_failure_carries_prior_count (env : Env) (cfg : Config) (s : Sys)
    (msg : VideoUploadMessage) (err : GoError)
    (henc : encodeAnswer env cfg s msg = .error err) :
    (Process env cfg s msg).1.trace
      = s.trace ++ [.MarkVideoProcessing msg.VideoID,
          .EncodeToHLS (inputPath cfg msg) msg.VideoID,
          .RemoveAll (filepathJoin [cfg.Paths.OutputHLSPath, msg.VideoID]),
          .RemoveAll (filepathJoin [cfg.Paths.OutputThumbnailPath, msg.VideoID]),
          .HandleVideoFailure msg.VideoID err.Error "ENCODING_FAILED"
            ((s.retryTracker msg.VideoID).getD 0)] ∧
    (Process env cfg s msg).1.calls Event.isFailure = s.calls Event.isFailure + 1 ∧
    (-2 ^ 31 ≤ (s.retryTracker msg.VideoID).getD 0 → (s.retryTracker msg.VideoID).getD 0 < 2 ^ 31 →
      (handleVideoFailureRequest msg.VideoID err.Error "ENCODING_FAILED"
        ((s.retryTracker msg.VideoID).getD 0)).RetryCount = (s.retryTracker msg.VideoID).getD 0) ∧
    handleVideoFailureRequest msg.VideoID err.Error "ENCODING_FAILED"
        ((s.retryTracker msg.VideoID).getD 0)
      = { VideoId := msg.VideoID, FailureReason := err.Error, ErrorCode := "ENCODING_FAILED",
          ShouldRetry := decide ((s.retryTracker msg.VideoID).getD 0 < 3),
          RetryCount := int32 ((s.retryTracker msg.VideoID).getD 0) } ∧
    (Process env cfg s msg).2
      = some (if reportOk (env.rpcHandleVideoFailure (s.calls Event.isFailure)
            { VideoId := msg.VideoID, FailureReason := err.Error,
              ErrorCode := "ENCODING_FAILED",
              ShouldRetry := decide ((s.retryTracker msg.VideoID).getD 0 < 3),
              RetryCount := int32 ((s.retryTracker msg.VideoID).getD 0) })
          then err else errorfW "processing failed and couldn't report: " err) ∧
    (Process env cfg s msg).1.retryTracker msg.VideoID
      = (if reportOk (env.rpcHandleVideoFailure (s.calls Event.isFailure)
              { VideoId := msg.VideoID, FailureReason := err.Error,
                ErrorCode := "ENCODING_FAILED",
                ShouldRetry := decide ((s.retryTracker msg.VideoID).getD 0 < 3),
                RetryCount := int32 ((s.retryTracker msg.VideoID).getD 0) })
            && !reportShouldRetry (env.rpcHandleVideoFailure (s.calls Event.isFailure)
              { VideoId := msg.VideoID, FailureReason := err.Error,
                ErrorCode := "ENCODING_FAILED",
                ShouldRetry := decide ((s.retryTracker msg.VideoID).getD 0 < 3),
                RetryCount := int32 ((s.retryTracker msg.VideoID).getD 0) })
         then none else some (goInt ((s.retryTracker msg.VideoID).getD 0 + 1))) := by
  have ht := Process_encode_error_trace env cfg s msg err henc
  have hreq : reportAnswer env s msg err
      = env.rpcHandleVideoFailure (s.calls Event.isFailure)
          { VideoId := msg.VideoID, FailureReason := err.Error, ErrorCode := "ENCODING_FAILED",
            ShouldRetry := decide ((s.retryTracker msg.VideoID).getD 0 < 3),
            RetryCount := int32 ((s.retryTracker msg.VideoID).getD 0) } := rfl
  refine ⟨ht, ?_, ?_, rfl, ?_⟩
  · simp [Sys.calls, ht, List.countP_append, List.countP_cons, Event.isFailure]
  · intro hlo hhi
    simp only [handleVideoFailureRequest, int32, wrapInt]
    norm_num at hlo hhi ⊢
    omega
  · rw [← hreq]
    cases hr : reportOk (reportAnswer env s msg err) with
    | false =>
      obtain ⟨h1, h2⟩ := Process_encode_error_report_fail env cfg s msg err henc hr
      refine ⟨by simp [h1], ?_⟩
      rw [h2, get_set_same]
      simp [RetryTracker.get]
    | true =>
      obtain ⟨h1, h2⟩ := Process_encode_error_report_ok env cfg s msg err henc hr
      refine ⟨by simp [h1], ?_⟩
      rw [h2]
      cases reportShouldRetry (reportAnswer env s msg err) with
      | false => simp [delete_same]
      | true => simp [get_set_same, RetryTracker.get]

/-- Witness of C6: the second failure of "v1" reports the count 1. -/
theorem report_failure_carries_prior_count_witness :
    (Process (failingWorld "v1" 1) (configWith 2) afterFirstFailure (videoMessage "v1")).1.trace
      = afterFirstFailure.trace ++ [.MarkVideoProcessing "v1",
          .EncodeToHLS "uploads/videos/clip.mp4" "v1",
          .RemoveAll "outputs/hls/v1",
          .RemoveAll "outputs/thumbnails/v1",
          .HandleVideoFailure "v1" "ffmpeg encoding failed: exit status 1" "ENCODING_FAILED"
            1] ∧
    (Process (failingWorld "v1" 1) (configWith 2) afterFirstFailure
      (videoMessage "v1")).1.calls Event.isFailure = afterFirstFailure.calls Event.isFailure + 1 ∧
    (-2 ^ 31 ≤ (1 : Int) → (1 : Int) < 2 ^ 31 →
      (handleVideoFailureRequest "v1" "ffmpeg encoding failed: exit status 1" "ENCODING_FAILED"
        1).RetryCount = 1) ∧
    handleVideoFailureRequest "v1" "ffmpeg encoding failed: exit status 1" "ENCODING_FAILED" 1
      = { VideoId := "v1", FailureReason := "ffmpeg encoding failed: exit status 1",
          ErrorCode := "ENCODING_FAILED", ShouldRetry := true, RetryCount := 1 } ∧
    (Process (failingWorld "v1" 1) (configWith 2) afterFirstFailure (videoMessage "v1")).2
      = some ffmpegFailed ∧
    (Process (failingWorld "v1" 1) (configWith 2) afterFirstFailure
      (videoMessage "v1")).1.retryTracker "v1" = none :=
  report_failure_carries_prior_count (failingWorld "v1" 1) (configWith 2) afterFirstFailure
    (videoMessage "v1") ffmpegFailed (by decide)

/-- C7: when the transcode fails and the reporter accepts the failure report
with `should_retry = false`, the ledger has no entry for the job afterwards,
whatever it held before, and the entries of all other jobs are unchanged. -/
theorem terminal_report_removes_entry (env : Env) (cfg : Config) (s : Sys)
    (msg : VideoUploadMessage) (err : GoError)
    (henc : encodeAnswer env cfg s msg = .error err)
    (hok : reportOk (reportAnswer env s msg err) = true)
    (hterm : reportShouldRetry (reportAnswer env s msg err) = false) :
    (Process env cfg s msg).1.retryTracker msg.VideoID = none ∧
    (∀ other, other ≠ msg.VideoID →
      (Process env cfg s msg).1.retryTracker other = s.retryTracker other) := by
  have h := (Process_encode_error_report_ok env cfg s msg err henc hok).2
  rw [hterm] at h
  simp only [Bool.false_eq_true, if_false] at h
  rw [h]
  refine ⟨delete_same _ _, ?_⟩
  intro other hne
  rw [delete_other _ _ _ hne, set_other _ _ _ _ hne]

/-- Witness of C7: the second failure of "v1", answered with `should_retry = false`. -/
theorem terminal_report_removes_entry_witness :
    (Process (failingWorld "v1" 1) (configWith 2) afterFirstFailure
      (videoMessage "v1")).1.retryTracker (videoMessage "v1").VideoID = none ∧
    (∀ other, other ≠ (videoMessage "v1").VideoID →
      (Process (failingWorld "v1" 1) (configWith 2) afterFirstFailure
        (videoMessage "v1")).1.retryTracker other = afterFirstFailure.retryTracker other) :=
  terminal_report_removes_entry (failingWorld "v1" 1) (configWith 2) afterFirstFailure
    (videoMessage "v1") ffmpegFailed (by decide) (by decide) (by decide)

/-- C8, as stated, fails: on a fresh processor the first delivery of "v1" has a
failing transcode and the reporter accepts the report with
`should_retry = false`; afterwards the ledger has no entry for "v1" instead of
the count 1. -/
theorem first_failure_may_leave_no_entry :
    anyEncodeFailure (failingWorld "v1" 0) (configWith 2) "v1" NewProcessor [] = false ∧
    encodeFailsFor (failingWorld "v1" 0) (configWith 2) "v1"
      (handleAll (failingWorld "v1" 0) (configWith 2) NewProcessor []) (delivery 1) = true ∧
    (handleAll (failingWorld "v1" 0) (configWith 2) NewProcessor
      ([] ++ [delivery 1])).retryTracker "v1" = none ∧
    (handleAll (failingWorld "v1" 0) (configWith 2) NewProcessor
      ([] ++ [delivery 1])).retryTracker "v1" ≠ some 1 := by
  decide

/-- C8 (amended): starting from a freshly constructed processor, the ledger has
no entry for a job as long as none of the deliveries handled so far was a failed
transcode of that job; after the first delivery of that job whose transcode
fails the ledger holds the count 1 for it, unless the reporter accepted the
failure report of that delivery with `should_retry = false`, in which case the
ledger has no entry for it. -/
theorem ledger_entry_after_first_failure (env : Env) (cfg : Config) (videoID : String)
    (msgs : List Msg)
    (hnone : anyEncodeFailure env cfg videoID NewProcessor msgs = false) :
    (handleAll env cfg NewProcessor msgs).retryTracker videoID = none ∧
    (∀ (msg : Msg) (videoMsg : VideoUploadMessage) (err : GoError),
      env.jsonUnmarshal msg.Data = .ok videoMsg → videoMsg.VideoID = videoID →
      encodeAnswer env cfg (handleAll env cfg NewProcessor msgs) videoMsg = .error err →
      (handleAll env cfg NewProcessor (msgs ++ [msg])).retryTracker videoID
        = (if reportOk (reportAnswer env (handleAll env cfg NewProcessor msgs) videoMsg err)
              && !reportShouldRetry
                (reportAnswer env (handleAll env cfg NewProcessor msgs) videoMsg err)
           then none else some 1)) := by
  have habs := handleAll_keeps_absent env cfg videoID msgs NewProcessor rfl hnone
  refine ⟨habs, ?_⟩
  intro msg videoMsg err hparse hid henc
  subst hid
  have hget : (handleAll env cfg NewProcessor msgs).retryTracker.get videoMsg.VideoID = 0 := by
    simp [RetryTracker.get, habs]
  have hone : goInt (0 + 1) = 1 := by decide
  rw [handleAll_append, handleMessage_fst env cfg _ msg videoMsg hparse]
  cases hr : reportOk (reportAnswer env (handleAll env cfg NewProcessor msgs) videoMsg err) with
  | false =>
    rw [(Process_encode_error_report_fail env cfg _ videoMsg err henc hr).2, get_set_same,
      hget, hone]
    simp
  | true =>
    rw [(Process_encode_error_report_ok env cfg _ videoMsg err henc hr).2, hget, hone]
    cases reportShouldRetry
      (reportAnswer env (handleAll env cfg NewProcessor msgs) videoMsg err) with
    | false => simp [delete_same]
    | true => simp [get_set_same]

/-- Witness of C8 (amended): one successful delivery of "v1" on a fresh processor. -/
theorem ledger_entry_after_first_failure_witness :
    (handleAll (lateFailureWorld "v1" 1) (configWith 2) NewProcessor
      [delivery 1]).retryTracker "v1" = none ∧
    (∀ (msg : Msg) (videoMsg : VideoUploadMessage) (err : GoError),
      (lateFailureWorld "v1" 1).jsonUnmarshal msg.Data = .ok videoMsg →
      videoMsg.VideoID = "v1" →
      encodeAnswer (lateFailureWorld "v1" 1) (configWith 2)
        (handleAll (lateFailureWorld "v1" 1) (configWith 2) NewProcessor [delivery 1]) videoMsg
        = .error err →
      (handleAll (lateFailureWorld "v1" 1) (configWith 2) NewProcessor
        ([delivery 1] ++ [msg])).retryTracker "v1"
        = (if reportOk (reportAnswer (lateFailureWorld "v1" 1)
                (handleAll (lateFailureWorld "v1" 1) (configWith 2) NewProcessor [delivery 1])
                videoMsg err)
              && !reportShouldRetry (reportAnswer (lateFailureWorld "v1" 1)
                (handleAll (lateFailureWorld "v1" 1) (configWith 2) NewProcessor [delivery 1])
                videoMsg err)
           then none else some 1)) :=
  ledger_entry_after_first_failure (lateFailureWorld "v1" 1) (configWith 2) "v1" [delivery 1]
    (by decide)

/-- C9: when the transcode fails and the failure report itself fails (the stub
returns an error, or the response carries `Success = false`), `Process` returns
an error that wraps the transcode error, the ledger entry of the job holds the
incremented count, the other entries are unchanged, and with delivery metadata
available and `0 ≤ max_retries` the handler sends a negative acknowledgement
when the redelivery counter is below `max_retries + 1` and a termination
otherwise. -/
theorem failed_report_is_hard_failure (env : Env) (cfg : Config) (s : Sys) (msg : Msg)
    (md : MsgMetadata) (videoMsg : VideoUploadMessage) (err : GoError)
    (hparse : env.jsonUnmarshal msg.Data = .ok videoMsg)
    (henc : encodeAnswer env cfg s videoMsg = .error err)
    (hrep : (∃ e, reportAnswer env s videoMsg err = .error e) ∨
      (∃ resp, reportAnswer env s videoMsg err = .ok resp ∧ resp.Success = false))
    (hmeta : msg.Metadata = some md)
    (h0 : 0 ≤ cfg.Retry.MaxRetries) (h1 : cfg.Retry.MaxRetries < 2 ^ 63) :
    (∃ e, (Process env cfg s videoMsg).2 = some e ∧ e.Unwrap = some err ∧
      e.Error = "processing failed and couldn't report: " ++ err.Error) ∧
    (Process env cfg s videoMsg).1.retryTracker videoMsg.VideoID
      = some (goInt ((s.retryTracker videoMsg.VideoID).getD 0 + 1)) ∧
    (0 ≤ (s.retryTracker videoMsg.VideoID).getD 0 →
      (s.retryTracker videoMsg.VideoID).getD 0 + 1 < 2 ^ 63 →
      (Process env cfg s videoMsg).1.retryTracker videoMsg.VideoID
        = some ((s.retryTracker videoMsg.VideoID).getD 0 + 1)) ∧
    (∀ other, other ≠ videoMsg.VideoID →
      (Process env cfg s videoMsg).1.retryTracker other = s.retryTracker other) ∧
    (handleMessage env cfg s msg).2
      = (if (md.NumDelivered : Int) < cfg.Retry.MaxRetries + 1 then Action.Nak
          else Action.Term) := by
  have hf : reportOk (reportAnswer env s videoMsg err) = false := by
    rcases hrep with ⟨e, he⟩ | ⟨resp, hr, hs⟩
    · rw [he]; rfl
    · rw [hr]; exact hs
  obtain ⟨hres, htr⟩ := Process_encode_error_report_fail env cfg s videoMsg err henc hf
  have hentry : (Process env cfg s videoMsg).1.retryTracker videoMsg.VideoID
      = some (goInt ((s.retryTracker videoMsg.VideoID).getD 0 + 1)) := by
    rw [htr, get_set_same]; rfl
  refine ⟨⟨_, hres, rfl, rfl⟩, hentry, ?_, ?_, ?_⟩
  · intro hlo hhi
    rw [hentry]
    simp only [goInt, wrapInt]
    norm_num at hhi ⊢
    omega
  · intro other hne
    rw [htr, set_other _ _ _ _ hne]
  · exact handleMessage_ceiling env cfg s msg md videoMsg _ hparse hres hmeta h0 h1

/-- Witness of C9: the second delivery of "v1" with the status service unreachable. -/
theorem failed_report_is_hard_failure_witness :
    (∃ e, (Process (unreachableWorld "v1") (configWith 2) afterFirstFailure
        (videoMessage "v1")).2 = some e ∧ e.Unwrap = some ffmpegFailed ∧
      e.Error = "processing failed and couldn't report: " ++ ffmpegFailed.Error) ∧
    (Process (unreachableWorld "v1") (configWith 2) afterFirstFailure
      (videoMessage "v1")).1.retryTracker (videoMessage "v1").VideoID
      = some (goInt ((afterFirstFailure.retryTracker (videoMessage "v1").VideoID).getD 0 + 1)) ∧
    (0 ≤ (afterFirstFailure.retryTracker (videoMessage "v1").VideoID).getD 0 →
      (afterFirstFailure.retryTracker (videoMessage "v1").VideoID).getD 0 + 1 < 2 ^ 63 →
      (Process (unreachableWorld "v1") (configWith 2) afterFirstFailure
        (videoMessage "v1")).1.retryTracker (videoMessage "v1").VideoID
        = some ((afterFirstFailure.retryTracker (videoMessage "v1").VideoID).getD 0 + 1)) ∧
    (∀ other, other ≠ (videoMessage "v1").VideoID →
      (Process (unreachableWorld "v1") (configWith 2) afterFirstFailure
        (videoMessage "v1")).1.retryTracker other = afterFirstFailure.retryTracker other) ∧
    (handleMessage (unreachableWorld "v1") (configWith 2) afterFirstFailure (delivery 2)).2
      = (if (((2 : Nat) : Int)) < (configWith 2).Retry.MaxRetries + 1 then Action.Nak
          else Action.Term) :=
  failed_report_is_hard_failure (unreachableWorld "v1") (configWith 2) afterFirstFailure
    (delivery 2) { NumDelivered := 2 } (videoMessage "v1") ffmpegFailed (by rfl) (by decide)
    (Or.inl ⟨_, rfl⟩) (by rfl) (by decide) (by decide)

/-- C10: the heartbeat is advisory.  Replacing the behaviour of
`mark_processing` by any other one, everything else being equal, changes
neither the error returned by `Process`, nor the ledger, nor the calls made. -/
theorem heartbeat_is_advisory (env : Env)
    (mark : Nat → MarkVideoProcessingRequest → Except GoError StatusResponse)
    (cfg : Config) (s : Sys) (msg : VideoUploadMessage) :
    Process { env with rpcMarkVideoProcessing := mark } cfg s msg = Process env cfg s msg := by
  simp only [Process, MarkVideoProcessing_fst]
  rfl

/-- C11, as stated, fails: for the job "v2" with a successful transcode and
`update_status` failing three times before it succeeds, `Process` makes four
`update_status` calls, one more than the claimed bound of 3, and returns
success. -/
theorem four_status_attempts :
    encodeAnswer (flakyStatusWorld "v2" 3) (configWith 2) NewProcessor (videoMessage "v2")
      = .ok (encoded "v2") ∧
    (Process (flakyStatusWorld "v2" 3) (configWith 2) NewProcessor
      (videoMessage "v2")).1.calls Event.isUpdate = NewProcessor.calls Event.isUpdate + 4 ∧
    ¬ ((Process (flakyStatusWorld "v2" 3) (configWith 2) NewProcessor
      (videoMessage "v2")).1.calls Event.isUpdate ≤ NewProcessor.calls Event.isUpdate + 3) ∧
    (Process (flakyStatusWorld "v2" 3) (configWith 2) NewProcessor (videoMessage "v2")).2
      = none := by
  decide

/-- C11 (amended): for every delivery in which the transcode succeeds, `Process`
makes at least one and at most four `update_status` calls, whatever their
outcomes: the first call and at most three calls of the retry loop. -/
theorem status_attempts_at_most_four (env : Env) (cfg : Config) (s : Sys)
    (msg : VideoUploadMessage) (result : EncodeResult)
    (henc : encodeAnswer env cfg s msg = .ok result) :
    s.calls Event.isUpdate + 1 ≤ (Process env cfg s msg).1.calls Event.isUpdate ∧
    (Process env cfg s msg).1.calls Event.isUpdate ≤ s.calls Event.isUpdate + 4 := by
  simp only [encodeAnswer] at henc
  have hle := withRetryLoop_calls_le
    (fun st => (st.record (.UpdateVideoStatus msg.VideoID result.HLSPath result.ThumbnailPath
        result.Duration),
      statusError "failed to update video status: "
        (env.rpcUpdateVideoStatus (st.calls Event.isUpdate)
          (updateVideoStatusRequest msg.VideoID result.HLSPath result.ThumbnailPath
            result.Duration)))) 3
    (fun S => by simp [calls_record, Event.isUpdate]) 3 0 none
    ((((s.record (.MarkVideoProcessing msg.VideoID)).record
      (.EncodeToHLS (inputPath cfg msg) msg.VideoID))).record
        (.UpdateVideoStatus msg.VideoID result.HLSPath result.ThumbnailPath result.Duration))
  have hge := withRetryLoop_calls_ge
    (fun st => (st.record (.UpdateVideoStatus msg.VideoID result.HLSPath result.ThumbnailPath
        result.Duration),
      statusError "failed to update video status: "
        (env.rpcUpdateVideoStatus (st.calls Event.isUpdate)
          (updateVideoStatusRequest msg.VideoID result.HLSPath result.ThumbnailPath
            result.Duration)))) 3
    (fun S => ⟨[.UpdateVideoStatus msg.VideoID result.HLSPath result.ThumbnailPath
      result.Duration], rfl⟩) 3 0 none
    ((((s.record (.MarkVideoProcessing msg.VideoID)).record
      (.EncodeToHLS (inputPath cfg msg) msg.VideoID))).record
        (.UpdateVideoStatus msg.VideoID result.HLSPath result.ThumbnailPath result.Duration))
  simp only [calls_record, Event.isUpdate, Bool.false_eq_true, if_false, if_true,
    Nat.add_zero] at hle hge
  have h3 : (3 : Int).toNat = 3 := rfl
  simp only [Process, MarkVideoProcessing_fst, EncodeToHLS, calls_record, Event.isEncode, henc,
    UpdateVideoStatus_eq, WithRetry, h3]
  simp only [Bool.false_eq_true, if_false, Nat.add_zero, henc]
  split
  · simp [calls_record, Event.isUpdate]
  · split
    · dsimp only
      exact ⟨hge, by omega⟩
    · dsimp only
      exact ⟨hge, by omega⟩

/-- Witness of C11 (amended): job "v2", `update_status` failing three times
before it succeeds. -/
theorem status_attempts_at_most_four_witness :
    NewProcessor.calls Event.isUpdate + 1
      ≤ (Process (flakyStatusWorld "v2" 3) (configWith 2) NewProcessor
          (videoMessage "v2")).1.calls Event.isUpdate ∧
    (Process (flakyStatusWorld "v2" 3) (configWith 2) NewProcessor
      (videoMessage "v2")).1.calls Event.isUpdate ≤ NewProcessor.calls Event.isUpdate + 4 :=
  status_attempts_at_most_four (flakyStatusWorld "v2" 3) (configWith 2) NewProcessor
    (videoMessage "v2") (encoded "v2") (by decide)

/-- C12, as stated, fails: with the configuration defaults (retry backoff of 60
seconds) and an operation that fails twice, `WithRetry(operation, 2)` waits 5
seconds after the first failed attempt, not the configured 60 seconds. -/
theorem retry_backoff_ignores_configuration :
    (configWith 3).Retry.RetryBackoffSeconds = 60 ∧
    (WithRetry (updateOperation (flakyStatusWorld "v2" 9) "v2" (encoded "v2")) 2
        NewProcessor).1.trace
      = [.UpdateVideoStatus "v2" (encoded "v2").HLSPath (encoded "v2").ThumbnailPath 42,
         .Sleep 5000000000,
         .UpdateVideoStatus "v2" (encoded "v2").HLSPath (encoded "v2").ThumbnailPath 42] ∧
    (boundedRetry (configuredBackoff (configWith 3))
        (updateOperation (flakyStatusWorld "v2" 9) "v2" (encoded "v2")) 2 2
        NewProcessor).1.trace
      = [.UpdateVideoStatus "v2" (encoded "v2").HLSPath (encoded "v2").ThumbnailPath 42,
         .Sleep 60000000000,
         .UpdateVideoStatus "v2" (encoded "v2").HLSPath (encoded "v2").ThumbnailPath 42] ∧
    (WithRetry (updateOperation (flakyStatusWorld "v2" 9) "v2" (encoded "v2")) 2
        NewProcessor).1.trace
      ≠ (boundedRetry (configuredBackoff (configWith 3))
          (updateOperation (flakyStatusWorld "v2" 9) "v2" (encoded "v2")) 2 2
          NewProcessor).1.trace := by
  decide

/-- C12 (amended): for `n ≥ 1` attempts whose waits fit a 64-bit duration,
`WithRetry(operation, n)` is the bounded retry of the specification with the
fixed unit of 5 seconds, whatever the configured backoff: the operation is
called at most `n` times, the loop stops at the first success, the wait after
the failed attempt number `i < n` is `i` times 5 seconds, no wait follows the
attempt number `n`, and the result is success when an attempt succeeded and
otherwise the last error wrapped. -/
theorem retry_backoff_is_five_seconds (operation : Sys → Sys × Option GoError) (n : Nat)
    (s : Sys) (h1 : 1 ≤ n) (hn : (n : Int) * 5000000000 < 2 ^ 63) :
    WithRetry operation n s = boundedRetry fiveSeconds operation n n s ∧
    (∀ (env : Env) (videoID : String) (result : EncodeResult),
      (WithRetry (updateOperation env videoID result) n s).1.calls Event.isUpdate
        ≤ s.calls Event.isUpdate + n) ∧
    (∀ i : Nat, 1 ≤ i → i < n → waitTime (i - 1) = (i : Int) * fiveSeconds) := by
  obtain ⟨k, rfl⟩ : ∃ k, n = k + 1 := ⟨n - 1, by omega⟩
  refine ⟨?_, ?_, ?_⟩
  · have h := withRetryLoop_eq_boundedRetry operation (k + 1) hn k 0 none s (by omega)
    simpa [WithRetry] using h
  · intro env videoID result
    have h := withRetryLoop_calls_le (updateOperation env videoID result) ((k + 1 : Nat) : Int)
      (updateOperation_calls env videoID result) (k + 1) 0 none s
    simpa [WithRetry] using h
  · intro i hi1 hin
    obtain ⟨j, rfl⟩ : ∃ j, i = j + 1 := ⟨i - 1, by omega⟩
    have hb : ((j : Int) + 1) * 5000000000 < 2 ^ 63 := by
      norm_num at hn ⊢
      omega
    have h := waitTime_linear j hb
    simpa using h

/-- Witness of C12 (amended): three attempts that all fail. -/
theorem retry_backoff_is_five_seconds_witness :
    WithRetry (updateOperation (flakyStatusWorld "v2" 9) "v2" (encoded "v2")) (3 : Nat)
        NewProcessor
      = boundedRetry fiveSeconds (updateOperation (flakyStatusWorld "v2" 9) "v2" (encoded "v2"))
          3 3 NewProcessor ∧
    (∀ (env : Env) (videoID : String) (result : EncodeResult),
      (WithRetry (updateOperation env videoID result) (3 : Nat) NewProcessor).1.calls
          Event.isUpdate
        ≤ NewProcessor.calls Event.isUpdate + 3) ∧
    (∀ i : Nat, 1 ≤ i → i < 3 → waitTime (i - 1) = (i : Int) * fiveSeconds) :=
  retry_backoff_is_five_seconds (updateOperation (flakyStatusWorld "v2" 9) "v2" (encoded "v2"))
    3 NewProcessor (by decide) (by decide)

/-- C13 fails on the code.  With the default output roots, the job ID of a
payload without `video_id` (the empty string) makes the cleanup remove the two
output roots themselves, and the job ID `..` makes it remove their parent; a
plain job ID such as "v1" stays below the root, and so does the input path,
which `Process` builds from the base name of the uploaded file. -/
theorem cleanup_leaves_the_output_roots :
    cleanupDirs (configWith 3).Paths "" = ["outputs/hls", "outputs/thumbnails"] ∧
    filepathJoin [(configWith 3).Paths.OutputHLSPath, ""]
      = filepathClean (configWith 3).Paths.OutputHLSPath ∧
    filepathJoin [(configWith 3).Paths.OutputThumbnailPath, ""]
      = filepathClean (configWith 3).Paths.OutputThumbnailPath ∧
    strictDescendant (configWith 3).Paths.OutputHLSPath
      (filepathJoin [(configWith 3).Paths.OutputHLSPath, ""]) = false ∧
    strictDescendant (configWith 3).Paths.OutputThumbnailPath
      (filepathJoin [(configWith 3).Paths.OutputThumbnailPath, ""]) = false ∧
    cleanupDirs (configWith 3).Paths ".." = ["outputs", "outputs"] ∧
    strictDescendant (configWith 3).Paths.OutputHLSPath
      (filepathJoin [(configWith 3).Paths.OutputHLSPath, ".."]) = false ∧
    strictDescendant (configWith 3).Paths.OutputThumbnailPath
      (filepathJoin [(configWith 3).Paths.OutputThumbnailPath, ".."]) = false ∧
    (handleMessage (failingWorld "" 1) (configWith 3) NewProcessor (delivery 1)).1.trace
      = [.MarkVideoProcessing "",
         .EncodeToHLS "uploads/videos/clip.mp4" "",
         .RemoveAll "outputs/hls",
         .RemoveAll "outputs/thumbnails",
         .HandleVideoFailure "" "ffmpeg encoding failed: exit status 1" "ENCODING_FAILED" 0] ∧
    strictDescendant (configWith 3).Paths.OutputHLSPath
      (filepathJoin [(configWith 3).Paths.OutputHLSPath, "v1"]) = true ∧
    strictDescendant (configWith 3).Paths.InputVideoPath
      (inputPath (configWith 3)
        { videoMessage "v1" with UploadFilePath := "../../etc/passwd" }) = true := by
  decide

end VideoWorker
